import Mathlib

/-! # DroneRace episode engine (`src/drone_race/drone_race.h`)

A shallow embedding of the episode state machine of the drone-race
environment: `add_log`, `compute_observations`, `c_reset` and `c_step`.

Conventions of the embedding.

* C `float` values are rationals (exact arithmetic, no rounding); a division
  by zero, which yields an infinity or a NaN in C, yields 0 (only `log.perf`
  with `max_rings = 0` is concerned).  C `int` values are integers; signed
  overflow, which is undefined in C, does not occur in the model.
  `unsigned char` is a natural number.
* A C buffer is a total map from its index type to its element type; a write
  to slot `i` is `Function.update`.  Only slot 0 of `rewards` and of
  `terminals` is ever touched, so those two buffers are a single value each.
* `dronelib.h` is not part of the sources at hand.  Its record types are
  modelled from their use sites, and every function and constant it supplies
  is a field of `DroneLib`; all theorems quantify over an arbitrary `DroneLib`.
* The process-wide C generator behind `rndf` is an explicit state `Rng` that
  is threaded through every function that may draw from it.
* The `do ... while` rejection loop of `c_reset` need not terminate; it is
  modelled with a fuel argument (an upper bound on the number of candidates
  drawn), and `c_reset` / `c_step` return `none` when the fuel runs out.
-/

namespace Race

/-! ## Data model -/

/-- Modelled from the spec: `Vec3` of the absent `dronelib.h`, a vector of ℝ³
with components `x`, `y`, `z` (the components `drone_race.h` reads). -/
structure Vec3 where
  x : ℚ
  y : ℚ
  z : ℚ

/-- Modelled from the spec: `Quat` of the absent `dronelib.h`, the orientation
quaternion in w-x-y-z order. -/
structure Quat where
  w : ℚ
  x : ℚ
  y : ℚ
  z : ℚ

/-- Modelled from the spec: `Ring` of the absent `dronelib.h`: position, normal
and radius. -/
structure Ring where
  pos : Vec3
  normal : Vec3
  radius : ℚ

/-- Modelled from the spec: the `state` member of `Drone` in the absent
`dronelib.h`: position, velocity, orientation, angular velocity and the four
rotor speeds `rpms[0..3]`. -/
structure DroneState where
  pos : Vec3
  vel : Vec3
  quat : Quat
  omega : Vec3
  rpms : Nat → ℚ

/-- Modelled from the spec: the `params` member of `Drone` in the absent
`dronelib.h`: the static parameters the spec lists. -/
structure DroneParams where
  arm_len : ℚ
  max_vel : ℚ
  max_omega : ℚ
  max_rpm : ℚ
  k_thrust : ℚ

/-- Modelled from the spec: `Drone` of the absent `dronelib.h`, restricted to
the members `drone_race.h` reads or writes. -/
structure Drone where
  state : DroneState
  prev_pos : Vec3
  params : DroneParams

/-- Modelled from the spec: `Log` of the absent `dronelib.h`; the eight float
fields are those exported by `my_log` in `binding.c`. -/
structure Log where
  perf : ℚ
  score : ℚ
  collision_rate : ℚ
  oob : ℚ
  timeout : ℚ
  episode_return : ℚ
  episode_length : ℚ
  n : ℚ

/-- State of the process-wide C generator. -/
abbrev Rng := Nat

/-- The `struct DroneRace` of `drone_race.h` (the rendering `client` is left
out: no simulation function reads it). `rewards` and `terminals` are slot 0 of
the respective buffers. -/
structure DroneRace where
  observations : Nat → ℚ
  actions : Nat → ℚ
  rewards : ℚ
  terminals : Nat
  log : Log
  tick : Int
  report_interval : Int
  score : Int
  episodic_return : ℚ
  max_rings : Int
  ring_idx : Int
  ring_buffer : Int → Ring
  max_moves : Int
  moves_left : Int
  drone : Drone

/-- Modelled from the spec: everything `drone_race.h` takes from the absent
`dronelib.h`, as parameters: the flight-volume half-extents and spawn margins,
the vector and quaternion helpers, the generator `rndf`, the ring course
generator `reset_rings`, and the flight dynamics port (`init_drone`,
`move_drone`, `check_ring`). `reset_rings` and `init_drone` may draw random
numbers; `move_drone` may rewrite the action buffer it is handed; `check_ring`
only returns a reward (the spec has it free of side effects). -/
structure DroneLib where
  GRID_X : ℚ
  GRID_Y : ℚ
  GRID_Z : ℚ
  MARGIN_X : ℚ
  MARGIN_Y : ℚ
  MARGIN_Z : ℚ
  sub3 : Vec3 → Vec3 → Vec3
  norm3 : Vec3 → ℚ
  quat_inverse : Quat → Quat
  quat_rotate : Quat → Vec3 → Vec3
  rndf : ℚ → ℚ → Rng → ℚ × Rng
  reset_rings : (Int → Ring) → Int → ℚ → Rng → (Int → Ring) × Rng
  init_drone : Drone → ℚ → ℚ → Rng → Drone × Rng
  move_drone : Drone → (Nat → ℚ) → Drone × (Nat → ℚ)
  check_ring : Drone → Ring → ℚ

/-! ## Operations -/

/-- The function `add_log` of `drone_race.h` (lines 61-70). -/
def add_log (env : DroneRace) (oob collision timeout : ℚ) : DroneRace :=
  { env with
    log :=
      { score := env.log.score + (env.score : ℚ)
        episode_return := env.log.episode_return + env.episodic_return
        episode_length := env.log.episode_length + (env.tick : ℚ)
        perf := env.log.perf + (env.ring_idx : ℚ) / (env.max_rings : ℚ)
        oob := env.log.oob + oob
        collision_rate := env.log.collision_rate + collision
        timeout := env.log.timeout + timeout
        n := env.log.n + 1 } }

/-- The function `compute_observations` of `drone_race.h` (lines 72-125): 29
writes into the observation buffer. `%` is C remainder (`Int.tmod`). -/
def compute_observations (L : DroneLib) (env : DroneRace) : DroneRace :=
  let drone := env.drone
  let q_inv := L.quat_inverse drone.state.quat
  let curr_ring := env.ring_buffer env.ring_idx
  let next_ring := env.ring_buffer (Int.tmod env.ring_idx env.max_rings)
  let to_curr_ring := L.quat_rotate q_inv (L.sub3 curr_ring.pos drone.state.pos)
  let to_next_ring := L.quat_rotate q_inv (L.sub3 next_ring.pos drone.state.pos)
  let curr_ring_norm := L.quat_rotate q_inv curr_ring.normal
  let next_ring_norm := L.quat_rotate q_inv next_ring.normal
  let linear_vel_body := L.quat_rotate q_inv drone.state.vel
  let drone_up_world := L.quat_rotate drone.state.quat ⟨0, 0, 1⟩
  let o := env.observations
  let o := Function.update o 0 (to_curr_ring.x / L.GRID_X)
  let o := Function.update o 1 (to_curr_ring.y / L.GRID_Y)
  let o := Function.update o 2 (to_curr_ring.z / L.GRID_Z)
  let o := Function.update o 3 curr_ring_norm.x
  let o := Function.update o 4 curr_ring_norm.y
  let o := Function.update o 5 curr_ring_norm.z
  let o := Function.update o 6 (to_next_ring.x / L.GRID_X)
  let o := Function.update o 7 (to_next_ring.y / L.GRID_Y)
  let o := Function.update o 8 (to_next_ring.z / L.GRID_Z)
  let o := Function.update o 9 next_ring_norm.x
  let o := Function.update o 10 next_ring_norm.y
  let o := Function.update o 11 next_ring_norm.z
  let o := Function.update o 12 (linear_vel_body.x / drone.params.max_vel)
  let o := Function.update o 13 (linear_vel_body.y / drone.params.max_vel)
  let o := Function.update o 14 (linear_vel_body.z / drone.params.max_vel)
  let o := Function.update o 15 (drone.state.omega.x / drone.params.max_omega)
  let o := Function.update o 16 (drone.state.omega.y / drone.params.max_omega)
  let o := Function.update o 17 (drone.state.omega.z / drone.params.max_omega)
  let o := Function.update o 18 drone_up_world.x
  let o := Function.update o 19 drone_up_world.y
  let o := Function.update o 20 drone_up_world.z
  let o := Function.update o 21 drone.state.quat.w
  let o := Function.update o 22 drone.state.quat.x
  let o := Function.update o 23 drone.state.quat.y
  let o := Function.update o 24 drone.state.quat.z
  let o := Function.update o 25 (drone.state.rpms 0 / drone.params.max_rpm)
  let o := Function.update o 26 (drone.state.rpms 1 / drone.params.max_rpm)
  let o := Function.update o 27 (drone.state.rpms 2 / drone.params.max_rpm)
  let o := Function.update o 28 (drone.state.rpms 3 / drone.params.max_rpm)
  { env with observations := o }

/-- The `do ... while` loop of `c_reset` (lines 143-149): draw a candidate spawn
position, keep it unless it is closer than `2 * ring_radius` to `ring0`, the
position of ring 0. `fuel` bounds the number of candidates drawn. -/
def spawn_loop (L : DroneLib) (ring0 : Vec3) (ring_radius : ℚ) :
    Nat → Drone → Rng → Option (Drone × Rng)
  | 0, _, _ => none
  | fuel + 1, drone, g =>
    let px := L.rndf (-L.MARGIN_X) L.MARGIN_X g
    let py := L.rndf (-L.MARGIN_Y) L.MARGIN_Y px.2
    let pz := L.rndf (-L.MARGIN_Z) L.MARGIN_Z py.2
    let drone := { drone with state := { drone.state with pos := ⟨px.1, py.1, pz.1⟩ } }
    if L.norm3 (L.sub3 drone.state.pos ring0) < 2 * ring_radius then
      spawn_loop L ring0 ring_radius fuel drone pz.2
    else
      some (drone, pz.2)

/-- The function `c_reset` of `drone_race.h` (lines 127-154). -/
def c_reset (L : DroneLib) (fuel : Nat) (env : DroneRace) (g : Rng) :
    Option (DroneRace × Rng) :=
  let env := { env with tick := 0 }
  let env := { env with score := 0 }
  let env := { env with episodic_return := 0 }
  let env := { env with moves_left := env.max_moves }
  let env := { env with ring_idx := 0 }
  let ring_radius : ℚ := 2
  let rings := L.reset_rings env.ring_buffer env.max_rings ring_radius g
  let env := { env with ring_buffer := rings.1 }
  let size := L.rndf (5 / 100) (8 / 10) rings.2
  let made := L.init_drone env.drone size.1 (1 / 10) size.2
  match spawn_loop L (env.ring_buffer 0).pos ring_radius fuel made.1 made.2 with
  | none => none
  | some (drone, g) =>
    let drone := { drone with prev_pos := drone.state.pos }
    some (compute_observations L { env with drone := drone }, g)

/-- The bounds test of `c_step` (lines 166-168). -/
def out_of_bounds (L : DroneLib) (pos : Vec3) : Bool :=
  decide (pos.x < -L.GRID_X) || decide (pos.x > L.GRID_X) ||
  decide (pos.y < -L.GRID_Y) || decide (pos.y > L.GRID_Y) ||
  decide (pos.z < -L.GRID_Z) || decide (pos.z > L.GRID_Z)

/-- The tail of `c_step` (lines 196-207): the truncation check and, when the
episode goes on, the snapshot of the position and the new observations. -/
def c_step_truncate (L : DroneLib) (fuel : Nat) (env : DroneRace) (g : Rng) :
    Option (DroneRace × Rng) :=
  let env := { env with moves_left := env.moves_left - 1 }
  if env.moves_left = 0 ∨ env.ring_idx = env.max_rings then
    let env := { env with terminals := 1 }
    let env := add_log env 0 0 (if env.moves_left = 0 then 1 else 0)
    c_reset L fuel env g
  else
    let env := { env with drone := { env.drone with prev_pos := env.drone.state.pos } }
    some (compute_observations L env, g)

/-- The function `c_step` of `drone_race.h` (lines 156-208). -/
def c_step (L : DroneLib) (fuel : Nat) (env : DroneRace) (g : Rng) :
    Option (DroneRace × Rng) :=
  let env := { env with tick := env.tick + 1 }
  let env := { env with rewards := 0 }
  let env := { env with terminals := 0 }
  let env := { env with log := { env.log with score := 0 } }
  let moved := L.move_drone env.drone env.actions
  let env := { env with drone := moved.1, actions := moved.2 }
  if out_of_bounds L env.drone.state.pos then
    let env := { env with rewards := env.rewards - 1 }
    let env := { env with episodic_return := env.episodic_return - 1 }
    let env := { env with terminals := 1 }
    let env := add_log env 1 0 0
    match c_reset L fuel env g with
    | none => none
    | some (env, g) => some (compute_observations L env, g)
  else
    let ring := env.ring_buffer env.ring_idx
    let reward := L.check_ring env.drone ring
    let env := { env with rewards := env.rewards + reward }
    let env := { env with episodic_return := env.episodic_return + reward }
    if reward > 0 then
      let env := { env with score := env.score + 1 }
      let env := { env with ring_idx := env.ring_idx + 1 }
      c_step_truncate L fuel env g
    else if reward < 0 then
      let env := { env with terminals := 1 }
      let env := add_log env 0 1 0
      c_reset L fuel env g
    else
      c_step_truncate L fuel env g

/-! ## Derived notions used to state the properties -/

/-- The drone after `move_drone` has been applied to the commanded actions
(line 163 of `c_step`). -/
def moved (L : DroneLib) (env : DroneRace) : Drone :=
  (L.move_drone env.drone env.actions).1

/-- Whether the moved drone is outside the flight volume (lines 166-168). -/
def step_oob (L : DroneLib) (env : DroneRace) : Bool :=
  out_of_bounds L (moved L env).state.pos

/-- The value `check_ring` returns for the moved drone and the ring at the
pre-step `ring_idx` (lines 181-182). -/
def step_reward (L : DroneLib) (env : DroneRace) : ℚ :=
  L.check_ring (moved L env) (env.ring_buffer env.ring_idx)

/-- The state of `c_step` after line 163: tick counted, reward, terminal flag and
`log.score` cleared, drone moved. -/
def after_move (L : DroneLib) (env : DroneRace) : DroneRace :=
  { env with
    tick := env.tick + 1
    rewards := 0
    terminals := 0
    log := { env.log with score := 0 }
    drone := (L.move_drone env.drone env.actions).1
    actions := (L.move_drone env.drone env.actions).2 }

/-- The state of an in-bounds `c_step` after line 188: the ring reward applied
and, when it is positive, score and ring index advanced. -/
def after_check (L : DroneLib) (env : DroneRace) : DroneRace :=
  { after_move L env with
    rewards := 0 + step_reward L env
    episodic_return := env.episodic_return + step_reward L env
    score := if step_reward L env > 0 then env.score + 1 else env.score
    ring_idx := if step_reward L env > 0 then env.ring_idx + 1 else env.ring_idx }

/-- The state on which the out-of-bounds path of `c_step` calls `c_reset`
(after line 174). -/
def logged_oob (L : DroneLib) (env : DroneRace) : DroneRace :=
  add_log { after_move L env with
    rewards := 0 - 1, episodic_return := env.episodic_return - 1, terminals := 1 } 1 0 0

/-- The state on which the collision path of `c_step` calls `c_reset` (after
line 191). -/
def logged_collision (L : DroneLib) (env : DroneRace) : DroneRace :=
  add_log { after_check L env with terminals := 1 } 0 1 0

/-- The truncation test of `c_step` (line 198), in terms of the pre-step state. -/
def truncates (L : DroneLib) (env : DroneRace) : Prop :=
  env.moves_left - 1 = 0 ∨ (after_check L env).ring_idx = env.max_rings

instance truncatesDecidable (L : DroneLib) (env : DroneRace) :
    Decidable (truncates L env) := by
  unfold truncates
  infer_instance

/-- The state on which the truncation path of `c_step` calls `c_reset` (after
line 200). -/
def logged_truncation (L : DroneLib) (env : DroneRace) : DroneRace :=
  add_log { after_check L env with moves_left := env.moves_left - 1, terminals := 1 }
    0 0 (if env.moves_left - 1 = 0 then 1 else 0)

/-- The state before the final `compute_observations` of a `c_step` that does
not end the episode (after line 205). -/
def continued (L : DroneLib) (env : DroneRace) : DroneRace :=
  { after_check L env with
    moves_left := env.moves_left - 1
    drone := { moved L env with prev_pos := (moved L env).state.pos } }

/-- The three events that end an episode inside `c_step`: the moved drone is out
of bounds; or it is in bounds and `check_ring` is negative (collision); or it is
in bounds, `check_ring` is not negative, and the move budget reaches zero or
this tick passes the last ring (truncation). -/
def terminal_event (L : DroneLib) (env : DroneRace) : Prop :=
  step_oob L env = true ∨
  (step_oob L env = false ∧ step_reward L env < 0) ∨
  (step_oob L env = false ∧ 0 ≤ step_reward L env ∧
    (env.moves_left - 1 = 0 ∨ (0 < step_reward L env ∧ env.ring_idx + 1 = env.max_rings)))

/-- Runs of the environment. `Run L env rs` holds when `env` is the state after
a `c_reset` followed by any number of `c_step` calls, and `rs` lists the
rewards emitted on the ticks since the last reset (explicit or inside a
terminal step). Between calls the host may overwrite the action buffer and the
log; the state of the generator is arbitrary at each call. -/
inductive Run (L : DroneLib) : DroneRace → List ℚ → Prop
  | reset (fuel : Nat) (env : DroneRace) (g : Rng) (r : DroneRace × Rng) :
      c_reset L fuel env g = some r → Run L r.1 []
  | host (env : DroneRace) (rs : List ℚ) (a : Nat → ℚ) (l : Log) :
      Run L env rs → Run L { env with actions := a, log := l } rs
  | step (fuel : Nat) (env : DroneRace) (rs : List ℚ) (g : Rng) (r : DroneRace × Rng) :
      Run L env rs → c_step L fuel env g = some r → r.1.terminals = 0 →
      Run L r.1 (rs ++ [r.1.rewards])
  | done (fuel : Nat) (env : DroneRace) (rs : List ℚ) (g : Rng) (r : DroneRace × Rng) :
      Run L env rs → c_step L fuel env g = some r → r.1.terminals ≠ 0 →
      Run L r.1 []

/-- What a returning `c_reset` leaves behind, relative to the state `env` it was
called on: the episode fields are fresh, everything that is not part of the
episode is kept, and the observations are those of the returned state. -/
structure ResetFacts (L : DroneLib) (env r : DroneRace) : Prop where
  tick : r.tick = 0
  score : r.score = 0
  episodic_return : r.episodic_return = 0
  moves_left : r.moves_left = env.max_moves
  ring_idx : r.ring_idx = 0
  max_moves : r.max_moves = env.max_moves
  max_rings : r.max_rings = env.max_rings
  log : r.log = env.log
  rewards : r.rewards = env.rewards
  terminals : r.terminals = env.terminals
  actions : r.actions = env.actions
  report_interval : r.report_interval = env.report_interval
  obs : compute_observations L r = r

/-- A small concrete `DroneLib`: a 30 x 30 x 10 half-extent volume, component-wise
vector difference, the 1-norm, a generator that cycles through the lower end,
the midpoint and the upper end of the requested range, a course of rings on
the x axis, a drone that is displaced by its first three action components,
and a ring that is passed by crossing its plane in the positive x direction
within its radius (crossing it farther out is a collision). -/
def sampleLib : DroneLib where
  GRID_X := 30
  GRID_Y := 30
  GRID_Z := 10
  MARGIN_X := 29
  MARGIN_Y := 29
  MARGIN_Z := 9
  sub3 := fun a b => ⟨a.x - b.x, a.y - b.y, a.z - b.z⟩
  norm3 := fun a => |a.x| + |a.y| + |a.z|
  quat_inverse := fun q => ⟨q.w, -q.x, -q.y, -q.z⟩
  quat_rotate := fun _ v => v
  rndf := fun a b g => (a + (b - a) * ((g % 3 : ℕ) : ℚ) / 2, g + 1)
  reset_rings := fun _ _ r g => (fun i => ⟨⟨10 + 5 * (i : ℚ), 0, 0⟩, ⟨1, 0, 0⟩, r⟩, g + 1)
  init_drone := fun _ size _ g =>
    (⟨⟨⟨0, 0, 0⟩, ⟨0, 0, 0⟩, ⟨1, 0, 0, 0⟩, ⟨0, 0, 0⟩, fun _ => 0⟩, ⟨0, 0, 0⟩,
      ⟨size / 2, 50, 50, 1000, 1⟩⟩, g)
  move_drone := fun d a =>
    ({ d with state := { d.state with
        pos := ⟨d.state.pos.x + a 0, d.state.pos.y + a 1, d.state.pos.z + a 2⟩ } }, a)
  check_ring := fun d r =>
    if d.prev_pos.x < r.pos.x ∧ r.pos.x ≤ d.state.pos.x then
      (if |d.state.pos.y - r.pos.y| + |d.state.pos.z - r.pos.z| < r.radius then 1 else -1)
    else 0

/-- A concrete mid-episode state: a course of two rings, a budget of three
moves of which two are left, the drone at rest at the origin, no action
commanded, stale values in the reward and terminal slots, and a log that
already holds a score of 5. -/
def sampleEnv : DroneRace where
  observations := fun _ => 0
  actions := fun _ => 0
  rewards := 7
  terminals := 1
  log := ⟨0, 5, 0, 0, 0, 0, 0, 1⟩
  tick := 1
  report_interval := 0
  score := 0
  episodic_return := 2
  max_rings := 2
  ring_idx := 0
  ring_buffer := fun i => ⟨⟨10 + 5 * (i : ℚ), 0, 0⟩, ⟨1, 0, 0⟩, 2⟩
  max_moves := 3
  moves_left := 2
  drone := ⟨⟨⟨0, 0, 0⟩, ⟨0, 0, 0⟩, ⟨1, 0, 0, 0⟩, ⟨0, 0, 0⟩, fun _ => 0⟩, ⟨0, 0, 0⟩,
    ⟨1 / 4, 50, 50, 1000, 1⟩⟩

/-- The state `sampleEnv` with a command that carries the drone out of the
flight volume on every axis. -/
def sampleOob : DroneRace := { sampleEnv with actions := fun _ => 31 }

/-- The result of resetting `sampleEnv` with one candidate draw allowed. -/
def sampleReset : DroneRace × Rng :=
  (c_reset sampleLib 1 sampleEnv 1).getD (sampleEnv, 1)

/-- The result of the step from `sampleOob`. -/
def sampleOobStep : DroneRace × Rng :=
  (c_step sampleLib 1 sampleOob 1).getD (sampleOob, 1)

/-- The result of the step from `sampleEnv` (the episode goes on). -/
def sampleStep : DroneRace × Rng :=
  (c_step sampleLib 0 sampleEnv 1).getD (sampleEnv, 1)

/-- The state `sampleEnv` with a single move left. -/
def sampleLastMove : DroneRace := { sampleEnv with moves_left := 1 }

/-- The result of the step from `sampleLastMove` (the budget runs out). -/
def sampleLastMoveStep : DroneRace × Rng :=
  (c_step sampleLib 1 sampleLastMove 1).getD (sampleLastMove, 1)

/-- The state `sampleEnv` with a command that carries the drone through the
plane of ring 0 outside its radius. -/
def sampleCrash : DroneRace :=
  { sampleEnv with actions := fun i => if i = 0 then 11 else if i = 1 then 5 else 0 }

/-- The result of the step from `sampleCrash` (a collision). -/
def sampleCrashStep : DroneRace × Rng :=
  (c_step sampleLib 1 sampleCrash 1).getD (sampleCrash, 1)

/-- The course `sampleLib.reset_rings` lays out: ring `i` at `x = 10 + 5 i` on
the x axis, facing along it, radius 2. -/
def sampleCourse : Int → Ring :=
  fun i => ⟨⟨10 + 5 * (i : ℚ), 0, 0⟩, ⟨1, 0, 0⟩, 2⟩

/-- The drone `c_reset` produces with `sampleLib` from generator state 1: spawned
at `(-29, 0, 9)`. -/
def sampleSpawned : Drone :=
  ⟨⟨⟨-29, 0, 9⟩, ⟨0, 0, 0⟩, ⟨1, 0, 0, 0⟩, ⟨0, 0, 0⟩, fun _ => 0⟩, ⟨-29, 0, 9⟩,
    ⟨2 / 5, 50, 50, 1000, 1⟩⟩

/-- A command that carries the drone spawned at `(-29, 0, 9)` to `(11, 0, 0)`,
through the centre of ring 0. -/
def samplePass : Nat → ℚ :=
  fun i => if i = 0 then 40 else if i = 2 then -9 else 0

/-- A state configured with a course of a single ring and a budget of `m` moves,
with the command `samplePass` in the action buffer. -/
def sampleStart (m : Int) : DroneRace :=
  { sampleEnv with max_rings := 1, max_moves := m, actions := samplePass }

/-- The result of resetting `sampleStart m`. -/
def sampleStartReset (m : Int) : DroneRace × Rng :=
  (c_reset sampleLib 1 (sampleStart m) 1).getD (sampleStart m, 1)

/-- The result of the first step after resetting `sampleStart m`: the drone
passes the only ring of the course. -/
def sampleStartStep (m : Int) : DroneRace × Rng :=
  (c_step sampleLib 1 (sampleStartReset m).1 1).getD (sampleStart m, 1)

/-! ## Derived notions for the observation encoder, the spawn loop and the buffer reads -/

/-- A world-frame vector expressed in the body frame of the drone: rotated by the
inverse of the orientation quaternion (`quat_rotate(q_inv, v)`, lines 75-85). -/
def body (L : DroneLib) (env : DroneRace) (v : Vec3) : Vec3 :=
  L.quat_rotate (L.quat_inverse env.drone.state.quat) v

/-- The ring `curr_ring` of `compute_observations` (line 76). -/
def curr_ring (env : DroneRace) : Ring :=
  env.ring_buffer env.ring_idx

/-- The ring `next_ring` of `compute_observations` (line 77). -/
def next_ring (env : DroneRace) : Ring :=
  env.ring_buffer (Int.tmod env.ring_idx env.max_rings)

/-- The draws of one pass through the body of the rejection loop of `c_reset`
(lines 144-148): the candidate position and the generator state after it. -/
def draw_candidate (L : DroneLib) (g : Rng) : Vec3 × Rng :=
  let px := L.rndf (-L.MARGIN_X) L.MARGIN_X g
  let py := L.rndf (-L.MARGIN_Y) L.MARGIN_Y px.2
  let pz := L.rndf (-L.MARGIN_Z) L.MARGIN_Z py.2
  (⟨px.1, py.1, pz.1⟩, pz.2)

/-- The candidate sampled on pass `k` (counted from 0) of the rejection loop
started with generator state `g`, and the generator state after it. -/
def nth_candidate (L : DroneLib) : Rng → Nat → Vec3 × Rng
  | g, 0 => draw_candidate L g
  | g, k + 1 => nth_candidate L (draw_candidate L g).2 k

/-- The course `c_reset` generates (line 136). -/
def reset_course (L : DroneLib) (env : DroneRace) (g : Rng) : Int → Ring :=
  (L.reset_rings env.ring_buffer env.max_rings 2 g).1

/-- The drone `c_reset` constructs and the generator state with which its
rejection loop starts (lines 140-141). -/
def reset_made (L : DroneLib) (env : DroneRace) (g : Rng) : Drone × Rng :=
  L.init_drone env.drone
    (L.rndf (5 / 100) (8 / 10) (L.reset_rings env.ring_buffer env.max_rings 2 g).2).1 (1 / 10)
    (L.rndf (5 / 100) (8 / 10) (L.reset_rings env.ring_buffer env.max_rings 2 g).2).2

/-- The test of the rejection loop (line 149): the candidate `p` is closer to
ring 0 of `course` than `2 * ring_radius = 4`. -/
def too_close (L : DroneLib) (course : Int → Ring) (p : Vec3) : Prop :=
  L.norm3 (L.sub3 p (course 0).pos) < 2 * 2

instance too_close_decidable (L : DroneLib) (course : Int → Ring) (p : Vec3) :
    Decidable (too_close L course p) := by
  unfold too_close
  infer_instance

/-- The indices at which `compute_observations` reads `ring_buffer` when called
on `env` (lines 76-77). -/
def compute_observations_reads (env : DroneRace) : List Int :=
  [env.ring_idx, Int.tmod env.ring_idx env.max_rings]

/-- The indices at which `c_reset` reads `ring_buffer` when called on `env`:
slot 0 in the rejection loop (line 149), then those of `compute_observations`
with `ring_idx = 0` (line 153). -/
def c_reset_reads (env : DroneRace) : List Int :=
  0 :: compute_observations_reads { env with ring_idx := 0 }

/-- The indices at which `c_step` reads `ring_buffer` when called on `env`: on
the out-of-bounds path those of `c_reset` and of the second
`compute_observations`; otherwise the slot handed to `check_ring` (line 181),
followed by those of `c_reset` on a terminal tick or those of the final
`compute_observations` (line 207). -/
def c_step_reads (L : DroneLib) (env : DroneRace) : List Int :=
  if step_oob L env = true then
    c_reset_reads env ++ compute_observations_reads { env with ring_idx := 0 }
  else
    env.ring_idx ::
      (if step_reward L env < 0 then c_reset_reads env
       else if truncates L env then c_reset_reads env
       else compute_observations_reads (continued L env))

/-- The value of `score` at the `add_log` call of a terminal `c_step` from `env`:
the pre-step score on the out-of-bounds path (line 174), the score after the
ring check otherwise (lines 191 and 200). -/
def recorded_score (L : DroneLib) (env : DroneRace) : Int :=
  if step_oob L env = true then env.score else (after_check L env).score

/-- The value of `ring_idx` at the `add_log` call of a terminal `c_step` from
`env`: the pre-step index on the out-of-bounds path (line 174), the index after
the ring check otherwise (lines 191 and 200). -/
def recorded_ring_idx (L : DroneLib) (env : DroneRace) : Int :=
  if step_oob L env = true then env.ring_idx else (after_check L env).ring_idx

/-- A second concrete `DroneLib`: as `sampleLib`, but the generator alternates
between the midpoint and the upper end of the requested range, and ring 0 of
the course sits at `(0, 29, 0)`, where the first candidate of a reset started
with generator state 0 lands. -/
def sampleRetryLib : DroneLib :=
  { sampleLib with
    rndf := fun a b g => (if g % 2 = 0 then a + (b - a) / 2 else b, g + 1)
    reset_rings := fun _ _ r g =>
      (fun i => ⟨⟨5 * (i : ℚ), 29, 0⟩, ⟨1, 0, 0⟩, r⟩, g + 1) }

/-- The result of resetting `sampleEnv` with `sampleRetryLib`, two candidate
draws allowed. -/
def sampleRetryReset : DroneRace × Rng :=
  (c_reset sampleRetryLib 2 sampleEnv 0).getD (sampleEnv, 0)

/-- The state `c_reset` returns with `sampleLib` when started with generator
state 1 on a state that agrees with `e` outside the episode fields. -/
def sampleResetOf (e : DroneRace) : DroneRace :=
  compute_observations sampleLib
    { e with
      tick := 0
      score := 0
      episodic_return := 0
      moves_left := e.max_moves
      ring_idx := 0
      ring_buffer := sampleCourse
      drone := sampleSpawned }

end Race

/-! # Simulator log buffer (`src/simulator/env.h`)

The `Log` / `LogBuffer` part of the simulator header: `allocate_logbuffer`,
`add_log` and `aggregate_and_clear`. Floats are rationals, `int` is `Int`, and
the `logs` array is a total map on indices; a buffer obtained from `calloc`
holds the all-zero `Log` in every slot.
-/

namespace Simulator

/-- The `struct Log` of `env.h` (lines 15-19). -/
structure Log where
  episode_return : ℚ
  episode_length : ℚ
  score : ℚ

/-- The `struct LogBuffer` of `env.h` (lines 22-26). -/
structure LogBuffer where
  logs : Int → Log
  length : Int
  idx : Int

/-- The function `allocate_logbuffer` of `env.h` (lines 28-34). -/
def allocate_logbuffer (size : Int) : LogBuffer :=
  { logs := fun _ => ⟨0, 0, 0⟩
    length := size
    idx := 0 }

/-- The function `add_log` of `env.h` (lines 41-49). -/
def add_log (logs : LogBuffer) (log : Log) : LogBuffer :=
  if logs.idx = logs.length then
    logs
  else
    let logs := { logs with logs := Function.update logs.logs logs.idx log }
    { logs with idx := logs.idx + 1 }

/-- The function `aggregate_and_clear` of `env.h` (lines 51-66): the returned
`Log` and the buffer afterwards. The `for` loop runs over `i = 0, ..., idx - 1`. -/
def aggregate_and_clear (logs : LogBuffer) : Log × LogBuffer :=
  let log : Log := ⟨0, 0, 0⟩
  if logs.idx = 0 then
    (log, logs)
  else
    let log := (List.range logs.idx.toNat).foldl
      (fun (log : Log) (i : Nat) =>
        let log := { log with
          episode_return := log.episode_return + (logs.logs (i : Int)).episode_return }
        let log := { log with
          episode_length := log.episode_length + (logs.logs (i : Int)).episode_length }
        { log with score := log.score + (logs.logs (i : Int)).score })
      log
    let log := { log with episode_return := log.episode_return / (logs.idx : ℚ) }
    let log := { log with episode_length := log.episode_length / (logs.idx : ℚ) }
    let log := { log with score := log.score / (logs.idx : ℚ) }
    (log, { logs with idx := 0 })

/-- The buffer after `add_log` has been called with each log of `ls` in turn. -/
def add_logs (logs : LogBuffer) (ls : List Log) : LogBuffer :=
  ls.foldl add_log logs

/-- Three sample logs. -/
def sampleLogs : List Log :=
  [⟨1, 2, 3⟩, ⟨3, 4, 5⟩, ⟨8, 9, 10⟩]

/-- A buffer of capacity 2 after three `add_log` calls. -/
def sampleFull : LogBuffer :=
  add_logs (allocate_logbuffer 2) sampleLogs

/-- A buffer of capacity 4 after three `add_log` calls. -/
def sampleRoomy : LogBuffer :=
  add_logs (allocate_logbuffer 4) sampleLogs

end Simulator

namespace Race

/-! ## Auxiliary lemmas -/

theorem some_getD_of_isSome {α : Type} (o : Option α) (d : α) (h : o.isSome = true) :
    o = some (o.getD d) := by
  cases o <;> simp_all

/-! ## Lemmas on the observation encoder and on `c_reset` -/

theorem update_congr_base {f f' : Nat → ℚ} {k i : Nat} {v : ℚ}
    (h : i ≠ k → f i = f' i) : Function.update f k v i = Function.update f' k v i := by
  by_cases hk : i = k
  · subst hk
    simp
  · rw [Function.update_noteq hk, Function.update_noteq hk]
    exact h hk

theorem compute_observations_frame (L : DroneLib) (env : DroneRace) (i : Nat)
    (hi : 29 ≤ i) : (compute_observations L env).observations i = env.observations i := by
  show Function.update _ 28 _ i = _
  iterate 29 rw [Function.update_noteq]
  all_goals omega

theorem compute_observations_written (L : DroneLib) (env : DroneRace) (o : Nat → ℚ)
    (i : Nat) (hi : i < 29) :
    (compute_observations L { env with observations := o }).observations i
      = (compute_observations L env).observations i := by
  show Function.update _ 28 _ i = Function.update _ 28 _ i
  iterate 29 (apply update_congr_base; intro)
  omega

theorem compute_observations_idem (L : DroneLib) (env : DroneRace) :
    compute_observations L (compute_observations L env) = compute_observations L env := by
  have h : (compute_observations L (compute_observations L env)).observations
      = (compute_observations L env).observations := by
    funext i
    by_cases hi : i < 29
    · exact compute_observations_written L env _ i hi
    · exact compute_observations_frame L _ i (by omega)
  calc compute_observations L (compute_observations L env)
      = { compute_observations L env with
          observations := (compute_observations L (compute_observations L env)).observations } := rfl
    _ = compute_observations L env := by rw [h]

theorem c_reset_facts {L : DroneLib} {fuel : Nat} {env : DroneRace} {g : Rng}
    {r : DroneRace × Rng} (h : c_reset L fuel env g = some r) : ResetFacts L env r.1 := by
  unfold c_reset at h
  simp only at h
  split at h
  · exact absurd h (by simp)
  · injection h with h
    subst h
    exact ⟨rfl, rfl, rfl, rfl, rfl, rfl, rfl, rfl, rfl, rfl, rfl, rfl,
      compute_observations_idem _ _⟩

/-! ## The paths of `c_step` -/

@[simp] theorem compute_observations_rewards (L : DroneLib) (e : DroneRace) :
    (compute_observations L e).rewards = e.rewards := rfl

@[simp] theorem compute_observations_terminals (L : DroneLib) (e : DroneRace) :
    (compute_observations L e).terminals = e.terminals := rfl

@[simp] theorem compute_observations_log (L : DroneLib) (e : DroneRace) :
    (compute_observations L e).log = e.log := rfl

@[simp] theorem compute_observations_tick (L : DroneLib) (e : DroneRace) :
    (compute_observations L e).tick = e.tick := rfl

@[simp] theorem compute_observations_score (L : DroneLib) (e : DroneRace) :
    (compute_observations L e).score = e.score := rfl

@[simp] theorem compute_observations_episodic_return (L : DroneLib) (e : DroneRace) :
    (compute_observations L e).episodic_return = e.episodic_return := rfl

@[simp] theorem compute_observations_max_rings (L : DroneLib) (e : DroneRace) :
    (compute_observations L e).max_rings = e.max_rings := rfl

@[simp] theorem compute_observations_ring_idx (L : DroneLib) (e : DroneRace) :
    (compute_observations L e).ring_idx = e.ring_idx := rfl

@[simp] theorem compute_observations_ring_buffer (L : DroneLib) (e : DroneRace) :
    (compute_observations L e).ring_buffer = e.ring_buffer := rfl

@[simp] theorem compute_observations_max_moves (L : DroneLib) (e : DroneRace) :
    (compute_observations L e).max_moves = e.max_moves := rfl

@[simp] theorem compute_observations_moves_left (L : DroneLib) (e : DroneRace) :
    (compute_observations L e).moves_left = e.moves_left := rfl

@[simp] theorem compute_observations_drone (L : DroneLib) (e : DroneRace) :
    (compute_observations L e).drone = e.drone := rfl

@[simp] theorem compute_observations_actions (L : DroneLib) (e : DroneRace) :
    (compute_observations L e).actions = e.actions := rfl

theorem c_step_oob_eq (L : DroneLib) (fuel : Nat) (env : DroneRace) (g : Rng)
    (h : step_oob L env = true) :
    c_step L fuel env g = c_reset L fuel (logged_oob L env) g := by
  have h' : out_of_bounds L (L.move_drone env.drone env.actions).1.state.pos = true := h
  unfold c_step
  simp only [h', if_true]
  cases hc : c_reset L fuel (logged_oob L env) g with
  | none =>
    have hc' := hc
    unfold logged_oob after_move at hc'
    simp only [hc']
  | some r =>
    have hobs := (c_reset_facts hc).obs
    have hc' := hc
    unfold logged_oob after_move at hc'
    simp only [hc', hobs]

theorem c_step_collision_eq (L : DroneLib) (fuel : Nat) (env : DroneRace) (g : Rng)
    (h : step_oob L env = false) (hr : step_reward L env < 0) :
    c_step L fuel env g = c_reset L fuel (logged_collision L env) g := by
  have h' : out_of_bounds L (L.move_drone env.drone env.actions).1.state.pos = false := h
  have hr' : L.check_ring (L.move_drone env.drone env.actions).1
      (env.ring_buffer env.ring_idx) < 0 := hr
  have hn : ¬ L.check_ring (L.move_drone env.drone env.actions).1
      (env.ring_buffer env.ring_idx) > 0 := not_lt.mpr hr'.le
  unfold c_step logged_collision after_check after_move step_reward moved
  simp only [h', hr', hn, if_true, if_false, Bool.false_eq_true]

theorem c_step_inbounds_eq (L : DroneLib) (fuel : Nat) (env : DroneRace) (g : Rng)
    (h : step_oob L env = false) (hr : 0 ≤ step_reward L env) :
    c_step L fuel env g = c_step_truncate L fuel (after_check L env) g := by
  have h' : out_of_bounds L (L.move_drone env.drone env.actions).1.state.pos = false := h
  have hr' : ¬ L.check_ring (L.move_drone env.drone env.actions).1
      (env.ring_buffer env.ring_idx) < 0 := not_lt.mpr hr
  unfold c_step after_check after_move step_reward moved
  simp only [h', hr', if_false, Bool.false_eq_true]
  split <;> rfl

theorem c_step_truncation_eq (L : DroneLib) (fuel : Nat) (env : DroneRace) (g : Rng)
    (h : step_oob L env = false) (hr : 0 ≤ step_reward L env) (ht : truncates L env) :
    c_step L fuel env g = c_reset L fuel (logged_truncation L env) g := by
  rw [c_step_inbounds_eq L fuel env g h hr]
  have ht' : (after_check L env).moves_left - 1 = 0 ∨
      (after_check L env).ring_idx = (after_check L env).max_rings := ht
  unfold c_step_truncate
  simp only [ht', if_true]
  rfl

theorem c_step_continue_eq (L : DroneLib) (fuel : Nat) (env : DroneRace) (g : Rng)
    (h : step_oob L env = false) (hr : 0 ≤ step_reward L env) (ht : ¬ truncates L env) :
    c_step L fuel env g = some (compute_observations L (continued L env), g) := by
  rw [c_step_inbounds_eq L fuel env g h hr]
  have ht' : ¬ ((after_check L env).moves_left - 1 = 0 ∨
      (after_check L env).ring_idx = (after_check L env).max_rings) := ht
  unfold c_step_truncate
  simp only [ht', if_false]
  rfl

/-- The four ways a returning `c_step` can have gone. -/
theorem c_step_cases {L : DroneLib} {fuel : Nat} {env : DroneRace} {g : Rng}
    {r : DroneRace × Rng} (hs : c_step L fuel env g = some r) :
    (step_oob L env = true ∧ ResetFacts L (logged_oob L env) r.1) ∨
    (step_oob L env = false ∧ step_reward L env < 0 ∧
      ResetFacts L (logged_collision L env) r.1) ∨
    (step_oob L env = false ∧ 0 ≤ step_reward L env ∧ truncates L env ∧
      ResetFacts L (logged_truncation L env) r.1) ∨
    (step_oob L env = false ∧ 0 ≤ step_reward L env ∧ ¬ truncates L env ∧
      r = (compute_observations L (continued L env), g)) := by
  rcases Bool.eq_false_or_eq_true (step_oob L env) with ho | ho
  · left
    rw [c_step_oob_eq L fuel env g ho] at hs
    exact ⟨ho, c_reset_facts hs⟩
  · right
    rcases lt_or_le (step_reward L env) 0 with hr | hr
    · left
      rw [c_step_collision_eq L fuel env g ho hr] at hs
      exact ⟨ho, hr, c_reset_facts hs⟩
    · right
      by_cases ht : truncates L env
      · left
        rw [c_step_truncation_eq L fuel env g ho hr ht] at hs
        exact ⟨ho, hr, ht, c_reset_facts hs⟩
      · right
        rw [c_step_continue_eq L fuel env g ho hr ht] at hs
        exact ⟨ho, hr, ht, (Option.some.inj hs).symm⟩

theorem c_step_truncate_eq (L : DroneLib) (fuel : Nat) (e : DroneRace) (g : Rng) :
    c_step_truncate L fuel e g =
      if e.moves_left - 1 = 0 ∨ e.ring_idx = e.max_rings then
        c_reset L fuel (add_log { e with moves_left := e.moves_left - 1, terminals := 1 }
          0 0 (if e.moves_left - 1 = 0 then 1 else 0)) g
      else
        some (compute_observations L { e with
          moves_left := e.moves_left - 1
          drone := { e.drone with prev_pos := e.drone.state.pos } }, g) := rfl

theorem spawn_loop_check_ring (L : DroneLib) (f : Drone → Ring → ℚ) (ring0 : Vec3)
    (radius : ℚ) (fuel : Nat) (d : Drone) (g : Rng) :
    spawn_loop { L with check_ring := f } ring0 radius fuel d g
      = spawn_loop L ring0 radius fuel d g := by
  induction fuel generalizing d g with
  | zero => rfl
  | succ n ih =>
    unfold spawn_loop
    simp only [ih]

theorem c_reset_check_ring (L : DroneLib) (f : Drone → Ring → ℚ) (fuel : Nat)
    (env : DroneRace) (g : Rng) :
    c_reset { L with check_ring := f } fuel env g = c_reset L fuel env g := by
  unfold c_reset
  simp only [spawn_loop_check_ring]
  rfl

theorem sample_reset_isSome (e : DroneRace) : (c_reset sampleLib 1 e 1).isSome = true := by
  norm_num [c_reset, spawn_loop, sampleLib]


theorem truncates_iff (L : DroneLib) (env : DroneRace) (hidx : env.ring_idx < env.max_rings) :
    truncates L env ↔
      (env.moves_left - 1 = 0 ∨ (0 < step_reward L env ∧ env.ring_idx + 1 = env.max_rings)) := by
  unfold truncates after_check
  by_cases hp : step_reward L env > 0
  · simp only [hp, if_true, true_and]
  · simp only [hp, if_false, false_and, or_false]
    constructor
    · rintro (h | h)
      · exact h
      · exact absurd h (ne_of_lt hidx)
    · intro h
      exact Or.inl h

theorem terminal_event_iff (L : DroneLib) (env : DroneRace)
    (hidx : env.ring_idx < env.max_rings) :
    terminal_event L env ↔
      (step_oob L env = true ∨ (step_oob L env = false ∧ step_reward L env < 0) ∨
        (step_oob L env = false ∧ 0 ≤ step_reward L env ∧ truncates L env)) := by
  unfold terminal_event
  rw [truncates_iff L env hidx]

theorem c_reset_isSome_congr (L : DroneLib) (fuel : Nat) (e e' : DroneRace) (g : Rng)
    (h1 : e.ring_buffer = e'.ring_buffer) (h2 : e.max_rings = e'.max_rings)
    (h3 : e.drone = e'.drone) :
    (c_reset L fuel e g).isSome = (c_reset L fuel e' g).isSome := by
  unfold c_reset
  simp only [h1, h2, h3]
  split <;> rename_i heq <;> simp only [heq, Option.isSome]

theorem sample_step_not_event : ¬ terminal_event sampleLib sampleEnv := by
  norm_num [terminal_event, step_oob, step_reward, moved, out_of_bounds, sampleLib, sampleEnv]

theorem sample_last_move_inbounds : step_oob sampleLib sampleLastMove = false := by
  norm_num [step_oob, moved, out_of_bounds, sampleLib, sampleLastMove, sampleEnv]

theorem sample_last_move_reward : step_reward sampleLib sampleLastMove = 0 := by
  norm_num [step_reward, moved, sampleLib, sampleLastMove, sampleEnv]

theorem sample_last_move_truncates : truncates sampleLib sampleLastMove :=
  Or.inl (by norm_num [sampleLastMove, sampleEnv])

theorem sample_last_move_step :
    c_step sampleLib 1 sampleLastMove 1 = some sampleLastMoveStep :=
  some_getD_of_isSome _ (sampleLastMove, 1)
    (by rw [c_step_truncation_eq sampleLib 1 sampleLastMove 1 sample_last_move_inbounds
          (le_of_eq sample_last_move_reward.symm) sample_last_move_truncates]
        exact sample_reset_isSome _)

theorem sample_crash_inbounds : step_oob sampleLib sampleCrash = false := by
  norm_num [step_oob, moved, out_of_bounds, sampleLib, sampleCrash, sampleEnv]

theorem sample_crash_reward : step_reward sampleLib sampleCrash = -1 := by
  norm_num [step_reward, moved, sampleLib, sampleCrash, sampleEnv]

theorem sample_crash_step : c_step sampleLib 1 sampleCrash 1 = some sampleCrashStep :=
  some_getD_of_isSome _ (sampleCrash, 1)
    (by rw [c_step_collision_eq sampleLib 1 sampleCrash 1 sample_crash_inbounds
          (by rw [sample_crash_reward]; norm_num)]
        exact sample_reset_isSome _)

theorem sample_step_eq : c_step sampleLib 0 sampleEnv 1 = some sampleStep := by
  have hn := sample_step_not_event
  unfold terminal_event at hn
  push_neg at hn
  have ho : step_oob sampleLib sampleEnv = false := by
    rcases Bool.eq_false_or_eq_true (step_oob sampleLib sampleEnv) with ho | ho
    · exact absurd ho hn.1
    · exact ho
  have hr : step_reward sampleLib sampleEnv = 0 := by
    norm_num [step_reward, moved, sampleLib, sampleEnv]
  have ht : ¬ truncates sampleLib sampleEnv := by
    rw [truncates_iff sampleLib sampleEnv (by decide), hr]
    norm_num [sampleEnv]
  exact some_getD_of_isSome _ (sampleEnv, 1)
    (by rw [c_step_continue_eq sampleLib 0 sampleEnv 1 ho (le_of_eq hr.symm) ht]; rfl)

theorem sample_oob_flag : step_oob sampleLib sampleOob = true := by
  norm_num [step_oob, moved, out_of_bounds, sampleLib, sampleOob, sampleEnv]

theorem sample_oob_step : c_step sampleLib 1 sampleOob 1 = some sampleOobStep :=
  some_getD_of_isSome _ (sampleOob, 1)
    (by rw [c_step_oob_eq sampleLib 1 sampleOob 1 sample_oob_flag]; exact sample_reset_isSome _)

theorem sample_oob_step_terminal : sampleOobStep.1.terminals = 1 := by
  have hc := sample_oob_step
  rw [c_step_oob_eq sampleLib 1 sampleOob 1 sample_oob_flag] at hc
  rw [(c_reset_facts hc).terminals]
  rfl

theorem c_step_rewards_eq {L : DroneLib} {fuel : Nat} {env : DroneRace} {g : Rng}
    {r : DroneRace × Rng} (h : c_step L fuel env g = some r) :
    r.1.rewards = if step_oob L env = true then -1 else step_reward L env := by
  rcases c_step_cases h with ⟨ho, F⟩ | ⟨ho, hr, F⟩ | ⟨ho, hr, htr, F⟩ | ⟨ho, hr, htr, rfl⟩
  · rw [F.rewards]; simp [logged_oob, add_log, ho]
  · rw [F.rewards]; simp [logged_collision, add_log, after_check, ho]
  · rw [F.rewards]; simp [logged_truncation, add_log, after_check, ho]
  · simp [continued, after_check, ho]

theorem sample_crash_step_terminal : sampleCrashStep.1.terminals = 1 := by
  have hc := sample_crash_step
  rw [c_step_collision_eq sampleLib 1 sampleCrash 1 sample_crash_inbounds
    (by rw [sample_crash_reward]; norm_num)] at hc
  rw [(c_reset_facts hc).terminals]
  rfl

/-! ## Runs -/

theorem c_step_terminals_cases {L : DroneLib} {fuel : Nat} {env : DroneRace} {g : Rng}
    {r : DroneRace × Rng} (h : c_step L fuel env g = some r) :
    r.1.terminals = 0 ∨ r.1.terminals = 1 := by
  rcases c_step_cases h with ⟨_, F⟩ | ⟨_, _, F⟩ | ⟨_, _, _, F⟩ | ⟨_, _, _, rfl⟩
  · right; rw [F.terminals]; rfl
  · right; rw [F.terminals]; rfl
  · right; rw [F.terminals]; rfl
  · left; rfl

theorem c_step_score_eq {L : DroneLib} {fuel : Nat} {env : DroneRace} {g : Rng}
    {r : DroneRace × Rng} (hinv : env.score = env.ring_idx)
    (h : c_step L fuel env g = some r) : r.1.score = r.1.ring_idx := by
  rcases c_step_cases h with ⟨_, F⟩ | ⟨_, _, F⟩ | ⟨_, _, _, F⟩ | ⟨_, _, _, rfl⟩
  · rw [F.score, F.ring_idx]
  · rw [F.score, F.ring_idx]
  · rw [F.score, F.ring_idx]
  · show (after_check L env).score = (after_check L env).ring_idx
    unfold after_check
    simp only [hinv]

theorem run_score_eq {L : DroneLib} {env : DroneRace} {rs : List ℚ} (hrun : Run L env rs) :
    env.score = env.ring_idx := by
  induction hrun with
  | reset fuel env g r h => rw [(c_reset_facts h).score, (c_reset_facts h).ring_idx]
  | host env rs a l _ ih => exact ih
  | step fuel env rs g r _ h _ ih => exact c_step_score_eq ih h
  | done fuel env rs g r _ h _ ih => exact c_step_score_eq ih h

theorem c_step_return_facts {L : DroneLib} {fuel : Nat} {env : DroneRace} {g : Rng}
    {r : DroneRace × Rng} (h : c_step L fuel env g = some r) :
    (r.1.terminals = 0 → r.1.episodic_return = env.episodic_return + r.1.rewards) ∧
    (r.1.terminals = 1 → r.1.episodic_return = 0 ∧
      r.1.log.episode_return
        = env.log.episode_return + (env.episodic_return + r.1.rewards)) := by
  rcases c_step_cases h with ⟨ho, F⟩ | ⟨ho, hr, F⟩ | ⟨ho, hr, htr, F⟩ | ⟨ho, hr, htr, rfl⟩
  · refine ⟨fun h0 => ?_, fun _ => ⟨F.episodic_return, ?_⟩⟩
    · rw [F.terminals] at h0
      exact absurd (show (1 : Nat) = 0 from h0) (by decide)
    · rw [F.log, F.rewards]
      simp [logged_oob, add_log, after_move]
      ring
  · refine ⟨fun h0 => ?_, fun _ => ⟨F.episodic_return, ?_⟩⟩
    · rw [F.terminals] at h0
      exact absurd (show (1 : Nat) = 0 from h0) (by decide)
    · rw [F.log, F.rewards]
      simp [logged_collision, add_log, after_check, after_move]
  · refine ⟨fun h0 => ?_, fun _ => ⟨F.episodic_return, ?_⟩⟩
    · rw [F.terminals] at h0
      exact absurd (show (1 : Nat) = 0 from h0) (by decide)
    · rw [F.log, F.rewards]
      simp [logged_truncation, add_log, after_check, after_move]
  · refine ⟨fun _ => ?_, fun h1 => ?_⟩
    · simp [continued, after_check]
    · exact absurd (show (0 : Nat) = 1 from h1) (by decide)

theorem run_return_eq {L : DroneLib} {env : DroneRace} {rs : List ℚ} (hrun : Run L env rs) :
    env.episodic_return = rs.sum := by
  induction hrun with
  | reset fuel env g r h => rw [(c_reset_facts h).episodic_return]; rfl
  | host env rs a l _ ih => exact ih
  | step fuel env rs g r _ h h0 ih =>
    rw [(c_step_return_facts h).1 h0, ih]
    simp
  | done fuel env rs g r _ h h0 ih =>
    have h1 : r.1.terminals = 1 := by
      rcases c_step_terminals_cases h with h' | h'
      · exact absurd h' h0
      · exact h'
    rw [((c_step_return_facts h).2 h1).1]
    rfl

/-! ## Evaluation of the concrete instance -/

theorem sample_reset_eq (e : DroneRace) :
    c_reset sampleLib 1 e 1 = some (compute_observations sampleLib
      { e with tick := 0, score := 0, episodic_return := 0, moves_left := e.max_moves,
               ring_idx := 0, ring_buffer := sampleCourse, drone := sampleSpawned }, 6) := by
  norm_num [c_reset, spawn_loop, sampleLib, sampleSpawned]
  rfl

theorem sample_start_reset_eq (m : Int) :
    sampleStartReset m = (compute_observations sampleLib
      { sampleStart m with
        tick := 0
        score := 0
        episodic_return := 0
        moves_left := m
        ring_idx := 0
        ring_buffer := sampleCourse
        drone := sampleSpawned }, 6) := by
  unfold sampleStartReset
  rw [sample_reset_eq]
  rfl

theorem sample_start_run (m : Int) : Run sampleLib (sampleStartReset m).1 [] :=
  Run.reset 1 (sampleStart m) 1 (sampleStartReset m)
    (some_getD_of_isSome _ (sampleStart m, 1) (sample_reset_isSome _))

theorem sample_start_inbounds (m : Int) :
    step_oob sampleLib (sampleStartReset m).1 = false := by
  rw [sample_start_reset_eq]
  norm_num [step_oob, moved, out_of_bounds, sampleLib, sampleStart, sampleSpawned, samplePass]

theorem sample_start_reward (m : Int) :
    step_reward sampleLib (sampleStartReset m).1 = 1 := by
  rw [sample_start_reset_eq]
  norm_num [step_reward, moved, sampleLib, sampleStart, sampleSpawned, samplePass,
    sampleCourse]

theorem sample_start_truncates (m : Int) : truncates sampleLib (sampleStartReset m).1 := by
  right
  unfold after_check
  rw [sample_start_reward, sample_start_reset_eq]
  norm_num [sampleStart, after_move]

theorem sample_start_step (m : Int) :
    c_step sampleLib 1 (sampleStartReset m).1 1 = some (sampleStartStep m) :=
  some_getD_of_isSome _ (sampleStart m, 1)
    (by rw [c_step_truncation_eq sampleLib 1 _ 1 (sample_start_inbounds m)
          (by rw [sample_start_reward]; norm_num) (sample_start_truncates m)]
        exact sample_reset_isSome _)

theorem c_step_completion_facts {L : DroneLib} {fuel : Nat} {env : DroneRace} {g : Rng}
    {r : DroneRace × Rng} (hinv : env.score = env.ring_idx)
    (hidx : env.ring_idx = env.max_rings - 1) (hin : step_oob L env = false)
    (hpos : 0 < step_reward L env) (h : c_step L fuel env g = some r) :
    r.1.terminals = 1 ∧ r.1.log.score = (env.max_rings : ℚ) ∧
    r.1.log.oob = env.log.oob ∧ r.1.log.collision_rate = env.log.collision_rate ∧
    r.1.log.timeout = env.log.timeout + (if env.moves_left - 1 = 0 then 1 else 0) := by
  have hp : step_reward L env > 0 := hpos
  have htr : truncates L env := by
    right
    unfold after_check
    simp only [hp, if_true]
    omega
  have hc := h
  rw [c_step_truncation_eq L fuel env g hin hpos.le htr] at hc
  have F := c_reset_facts hc
  have hs : env.score + 1 = env.max_rings := by omega
  refine ⟨?_, ?_, ?_, ?_, ?_⟩
  · rw [F.terminals]; rfl
  · rw [F.log, ← hs]
    simp [logged_truncation, add_log, after_check, after_move, hp]
  · rw [F.log]; simp [logged_truncation, add_log, after_check, after_move]
  · rw [F.log]; simp [logged_truncation, add_log, after_check, after_move]
  · rw [F.log]; simp [logged_truncation, add_log, after_check, after_move]

theorem sample_start_idx (m : Int) :
    (sampleStartReset m).1.ring_idx = (sampleStartReset m).1.max_rings - 1 := by
  rw [sample_start_reset_eq]
  norm_num [sampleStart]

theorem sample_start_moves (m : Int) : (sampleStartReset m).1.moves_left = m := by
  rw [sample_start_reset_eq]
  rfl

theorem sample_start_log (m : Int) : (sampleStartReset m).1.log = sampleEnv.log := by
  rw [sample_start_reset_eq]
  rfl

theorem sample_step_terminal : sampleStep.1.terminals = 0 := by
  rcases c_step_cases sample_step_eq with ⟨ho, _⟩ | ⟨_, hr, _⟩ | ⟨ho, hr, ht, _⟩ | ⟨_, _, _, h⟩
  · exact absurd (Or.inl ho) sample_step_not_event
  · have h0 : step_reward sampleLib sampleEnv = 0 := by
      norm_num [step_reward, moved, sampleLib, sampleEnv]
    rw [h0] at hr
    exact absurd hr (lt_irrefl 0)
  · exact absurd ((terminal_event_iff sampleLib sampleEnv (by decide)).mpr
      (Or.inr (Or.inr ⟨ho, hr, ht⟩))) sample_step_not_event
  · rw [h]
    rfl

/-! ## The rejection loop -/

theorem spawn_loop_sound (L : DroneLib) (course : Int → Ring) (fuel : Nat) :
    ∀ (d : Drone) (g : Rng) (d2 : Drone) (g2 : Rng),
      spawn_loop L (course 0).pos 2 fuel d g = some (d2, g2) →
      ∃ k, k < fuel ∧
        (∀ j, j < k → too_close L course (nth_candidate L g j).1) ∧
        ¬ too_close L course (nth_candidate L g k).1 ∧
        d2 = { d with state := { d.state with pos := (nth_candidate L g k).1 } } ∧
        g2 = (nth_candidate L g k).2 := by
  induction fuel with
  | zero =>
    intro d g d2 g2 h
    exact absurd h (by simp [spawn_loop])
  | succ n ih =>
    intro d g d2 g2 h
    unfold spawn_loop at h
    simp only at h
    by_cases hc : too_close L course (draw_candidate L g).1
    · have hc2 : L.norm3 (L.sub3 (draw_candidate L g).1 (course 0).pos) < 2 * 2 := hc
      unfold draw_candidate at hc2
      simp only at hc2
      rw [if_pos hc2] at h
      obtain ⟨k, hk, hrej, hacc, hd, hg⟩ := ih _ _ d2 g2 h
      refine ⟨k + 1, by omega, ?_, hacc, hd, hg⟩
      intro j hj
      cases j with
      | zero => exact hc
      | succ j => exact hrej j (by omega)
    · have hc2 : ¬ L.norm3 (L.sub3 (draw_candidate L g).1 (course 0).pos) < 2 * 2 := hc
      unfold draw_candidate at hc2
      simp only at hc2
      rw [if_neg hc2] at h
      have h2 := Option.some.inj h
      refine ⟨0, by omega, fun j hj => absurd hj (by omega), hc, ?_, ?_⟩
      · exact (congrArg Prod.fst h2).symm
      · exact (congrArg Prod.snd h2).symm

theorem spawn_loop_complete (L : DroneLib) (course : Int → Ring) (k : Nat) :
    ∀ (d : Drone) (g : Rng),
      (∀ j, j < k → too_close L course (nth_candidate L g j).1) →
      ¬ too_close L course (nth_candidate L g k).1 →
      ∀ fuel, k < fuel →
        spawn_loop L (course 0).pos 2 fuel d g
          = some ({ d with state := { d.state with pos := (nth_candidate L g k).1 } },
              (nth_candidate L g k).2) := by
  induction k with
  | zero =>
    intro d g _ hacc fuel hf
    obtain ⟨n, rfl⟩ : ∃ n, fuel = n + 1 := ⟨fuel - 1, by omega⟩
    have hc2 : ¬ L.norm3 (L.sub3 (draw_candidate L g).1 (course 0).pos) < 2 * 2 := hacc
    unfold draw_candidate at hc2
    simp only at hc2
    unfold spawn_loop
    simp only
    rw [if_neg hc2]
    rfl
  | succ k ih =>
    intro d g hrej hacc fuel hf
    obtain ⟨n, rfl⟩ : ∃ n, fuel = n + 1 := ⟨fuel - 1, by omega⟩
    have hc2 : L.norm3 (L.sub3 (draw_candidate L g).1 (course 0).pos) < 2 * 2 :=
      hrej 0 (by omega)
    unfold draw_candidate at hc2
    simp only at hc2
    unfold spawn_loop
    simp only
    rw [if_pos hc2]
    exact ih _ _ (fun j hj => hrej (j + 1) (by omega)) hacc n (by omega)

theorem spawn_loop_returns (L : DroneLib) (course : Int → Ring) (k : Nat) :
    ∀ (d : Drone) (g : Rng), ¬ too_close L course (nth_candidate L g k).1 →
      (spawn_loop L (course 0).pos 2 (k + 1) d g).isSome = true := by
  induction k with
  | zero =>
    intro d g hacc
    rw [spawn_loop_complete L course 0 d g (fun j hj => absurd hj (by omega)) hacc 1 (by omega)]
    rfl
  | succ k ih =>
    intro d g hacc
    by_cases hc : too_close L course (draw_candidate L g).1
    · have hc2 : L.norm3 (L.sub3 (draw_candidate L g).1 (course 0).pos) < 2 * 2 := hc
      unfold draw_candidate at hc2
      simp only at hc2
      unfold spawn_loop
      simp only
      rw [if_pos hc2]
      exact ih _ _ hacc
    · rw [spawn_loop_complete L course 0 d g (fun j hj => absurd hj (by omega)) hc
        (k + 1 + 1) (by omega)]
      rfl

/-- `c_reset` in terms of its rejection loop. -/
theorem c_reset_eq (L : DroneLib) (fuel : Nat) (env : DroneRace) (g : Rng) :
    c_reset L fuel env g =
      (spawn_loop L ((reset_course L env g) 0).pos 2 fuel (reset_made L env g).1
          (reset_made L env g).2).map
        (fun p => (compute_observations L
          { env with
            tick := 0
            score := 0
            episodic_return := 0
            moves_left := env.max_moves
            ring_idx := 0
            ring_buffer := reset_course L env g
            drone := { p.1 with prev_pos := p.1.state.pos } }, p.2)) := by
  unfold c_reset reset_course reset_made
  simp only
  split <;> rename_i heq <;> simp only [heq, Option.map]

theorem add_log_iterate_n (o c t : ℚ) (k : Nat) (env : DroneRace) :
    ((fun e => add_log e o c t)^[k] env).log.n = env.log.n + (k : ℚ) := by
  induction k with
  | zero => simp
  | succ k ih =>
    rw [Function.iterate_succ_apply']
    show ((fun e => add_log e o c t)^[k] env).log.n + 1 = _
    rw [ih]
    push_cast
    ring

theorem sample_retry_reset_eq :
    c_reset sampleRetryLib 2 sampleEnv 0 = some sampleRetryReset :=
  some_getD_of_isSome _ (sampleEnv, 0)
    (by norm_num [c_reset, spawn_loop, sampleRetryLib, sampleLib])

theorem sample_retry_short : c_reset sampleRetryLib 1 sampleEnv 0 = none := by
  norm_num [c_reset, spawn_loop, sampleRetryLib, sampleLib]

/-! ## Observation slots -/

theorem compute_observations_slot0 (L : DroneLib) (env : DroneRace) :
    (compute_observations L env).observations 0
      = (body L env (L.sub3 (curr_ring env).pos env.drone.state.pos)).x / L.GRID_X := rfl

theorem compute_observations_slot3 (L : DroneLib) (env : DroneRace) :
    (compute_observations L env).observations 3 = (body L env (curr_ring env).normal).x := rfl

theorem c_reset_obs_frame {L : DroneLib} {fuel : Nat} {env : DroneRace} {g : Rng}
    {r : DroneRace × Rng} (h : c_reset L fuel env g = some r) (i : Nat) (hi : 29 ≤ i) :
    r.1.observations i = env.observations i := by
  rw [c_reset_eq] at h
  cases hs : spawn_loop L ((reset_course L env g) 0).pos 2 fuel (reset_made L env g).1
      (reset_made L env g).2 with
  | none =>
    rw [hs] at h
    exact absurd h (by simp)
  | some p =>
    rw [hs] at h
    have hr : r = _ := (Option.some.inj h).symm
    rw [hr]
    exact compute_observations_frame L _ i hi

theorem sample_crash_step_value :
    sampleCrashStep.1 = sampleResetOf (logged_collision sampleLib sampleCrash) := by
  have h := sample_crash_step
  rw [c_step_collision_eq sampleLib 1 sampleCrash 1 sample_crash_inbounds
    (by rw [sample_crash_reward]; norm_num), sample_reset_eq] at h
  exact (congrArg Prod.fst (Option.some.inj h)).symm

/-! ## Invariants of runs -/

theorem c_step_max_rings {L : DroneLib} {fuel : Nat} {env : DroneRace} {g : Rng}
    {r : DroneRace × Rng} (h : c_step L fuel env g = some r) :
    r.1.max_rings = env.max_rings := by
  rcases c_step_cases h with ⟨_, F⟩ | ⟨_, _, F⟩ | ⟨_, _, _, F⟩ | ⟨_, _, _, rfl⟩
  · rw [F.max_rings]; rfl
  · rw [F.max_rings]; rfl
  · rw [F.max_rings]; rfl
  · rfl

theorem c_step_ring_idx_range {L : DroneLib} {fuel : Nat} {env : DroneRace} {g : Rng}
    {r : DroneRace × Rng} (hmax : 1 ≤ env.max_rings)
    (hinv : 0 ≤ env.ring_idx ∧ env.ring_idx < env.max_rings)
    (h : c_step L fuel env g = some r) :
    0 ≤ r.1.ring_idx ∧ r.1.ring_idx < r.1.max_rings := by
  rw [c_step_max_rings h]
  rcases c_step_cases h with ⟨_, F⟩ | ⟨_, _, F⟩ | ⟨_, _, _, F⟩ | ⟨_, _, ht, rfl⟩
  · rw [F.ring_idx]; omega
  · rw [F.ring_idx]; omega
  · rw [F.ring_idx]; omega
  · have hne : (after_check L env).ring_idx ≠ env.max_rings := fun he => ht (Or.inr he)
    show 0 ≤ (after_check L env).ring_idx ∧ (after_check L env).ring_idx < env.max_rings
    unfold after_check at hne ⊢
    simp only at hne ⊢
    split_ifs at hne ⊢ <;> omega

theorem run_ring_idx_range {L : DroneLib} {env : DroneRace} {rs : List ℚ}
    (hrun : Run L env rs) :
    1 ≤ env.max_rings → 0 ≤ env.ring_idx ∧ env.ring_idx < env.max_rings := by
  induction hrun with
  | reset fuel env g r h =>
    intro hmax
    rw [(c_reset_facts h).ring_idx]
    omega
  | host env rs a l _ ih => exact ih
  | step fuel env rs g r _ h _ ih =>
    intro hmax
    rw [c_step_max_rings h] at hmax
    exact c_step_ring_idx_range hmax (ih hmax) h
  | done fuel env rs g r _ h _ ih =>
    intro hmax
    rw [c_step_max_rings h] at hmax
    exact c_step_ring_idx_range hmax (ih hmax) h

theorem compute_observations_reads_range (env : DroneRace)
    (hinv : 0 ≤ env.ring_idx ∧ env.ring_idx < env.max_rings) :
    ∀ i ∈ compute_observations_reads env, 0 ≤ i ∧ i < env.max_rings := by
  intro i hi
  unfold compute_observations_reads at hi
  rw [Int.tmod_eq_of_lt hinv.1 hinv.2] at hi
  simp only [List.mem_cons, List.mem_singleton, or_self, List.mem_nil_iff, or_false] at hi
  rw [hi]
  exact hinv

theorem c_reset_reads_range (env : DroneRace) (hmax : 1 ≤ env.max_rings) :
    ∀ i ∈ c_reset_reads env, 0 ≤ i ∧ i < env.max_rings := by
  intro i hi
  unfold c_reset_reads at hi
  rcases List.mem_cons.mp hi with h0 | h1
  · rw [h0]; omega
  · exact compute_observations_reads_range { env with ring_idx := 0 }
      ⟨le_refl 0, by show (0 : Int) < env.max_rings; omega⟩ i h1

theorem sample_step_inbounds : step_oob sampleLib sampleEnv = false := by
  norm_num [step_oob, moved, out_of_bounds, sampleLib, sampleEnv]

theorem sample_step_reward : step_reward sampleLib sampleEnv = 0 := by
  norm_num [step_reward, moved, sampleLib, sampleEnv]

/-! ## The move budget and the recorded episode -/

theorem c_step_max_moves {L : DroneLib} {fuel : Nat} {env : DroneRace} {g : Rng}
    {r : DroneRace × Rng} (h : c_step L fuel env g = some r) :
    r.1.max_moves = env.max_moves := by
  rcases c_step_cases h with ⟨_, F⟩ | ⟨_, _, F⟩ | ⟨_, _, _, F⟩ | ⟨_, _, _, rfl⟩
  · rw [F.max_moves]; rfl
  · rw [F.max_moves]; rfl
  · rw [F.max_moves]; rfl
  · rfl

theorem c_step_moves_inv {L : DroneLib} {fuel : Nat} {env : DroneRace} {g : Rng}
    {r : DroneRace × Rng} (hmax : 1 ≤ env.max_moves)
    (hinv : env.tick + env.moves_left = env.max_moves ∧ 1 ≤ env.moves_left ∧
      env.moves_left ≤ env.max_moves)
    (h : c_step L fuel env g = some r) :
    r.1.tick + r.1.moves_left = r.1.max_moves ∧ 1 ≤ r.1.moves_left ∧
      r.1.moves_left ≤ r.1.max_moves := by
  rw [c_step_max_moves h]
  rcases c_step_cases h with ⟨_, F⟩ | ⟨_, _, F⟩ | ⟨_, _, _, F⟩ | ⟨_, _, ht, rfl⟩
  · have hm : r.1.moves_left = env.max_moves := by rw [F.moves_left]; rfl
    rw [F.tick, hm]; omega
  · have hm : r.1.moves_left = env.max_moves := by rw [F.moves_left]; rfl
    rw [F.tick, hm]; omega
  · have hm : r.1.moves_left = env.max_moves := by rw [F.moves_left]; rfl
    rw [F.tick, hm]; omega
  · have hne : env.moves_left - 1 ≠ 0 := fun he => ht (Or.inl he)
    show (env.tick + 1) + (env.moves_left - 1) = env.max_moves ∧
      1 ≤ env.moves_left - 1 ∧ env.moves_left - 1 ≤ env.max_moves
    omega

theorem run_moves_inv {L : DroneLib} {env : DroneRace} {rs : List ℚ}
    (hrun : Run L env rs) :
    1 ≤ env.max_moves →
      env.tick + env.moves_left = env.max_moves ∧ 1 ≤ env.moves_left ∧
        env.moves_left ≤ env.max_moves := by
  induction hrun with
  | reset fuel env g r h =>
    intro hmax
    have F := c_reset_facts h
    rw [F.max_moves] at hmax
    rw [F.tick, F.moves_left, F.max_moves]
    omega
  | host env rs a l _ ih => exact ih
  | step fuel env rs g r _ h _ ih =>
    intro hmax
    rw [c_step_max_moves h] at hmax
    exact c_step_moves_inv hmax (ih hmax) h
  | done fuel env rs g r _ h _ ih =>
    intro hmax
    rw [c_step_max_moves h] at hmax
    exact c_step_moves_inv hmax (ih hmax) h

theorem c_step_length_facts {L : DroneLib} {fuel : Nat} {env : DroneRace} {g : Rng}
    {r : DroneRace × Rng} (h : c_step L fuel env g = some r) (h1 : r.1.terminals = 1) :
    r.1.log.episode_length = env.log.episode_length + ((env.tick + 1 : Int) : ℚ) ∧
    (r.1.log.timeout = env.log.timeout + 1 → env.moves_left - 1 = 0) := by
  rcases c_step_cases h with ⟨_, F⟩ | ⟨_, _, F⟩ | ⟨_, _, _, F⟩ | ⟨_, _, _, rfl⟩
  · refine ⟨by rw [F.log]; rfl, ?_⟩
    intro ht
    rw [F.log] at ht
    simp [logged_oob, add_log, after_move] at ht
  · refine ⟨by rw [F.log]; rfl, ?_⟩
    intro ht
    rw [F.log] at ht
    simp [logged_collision, add_log, after_check, after_move] at ht
  · refine ⟨by rw [F.log]; rfl, ?_⟩
    intro ht
    rw [F.log] at ht
    by_contra hne
    simp [logged_truncation, add_log, after_check, after_move, hne] at ht
  · exact absurd (show (0 : Nat) = 1 from h1) (by decide)

theorem recorded_score_eq {L : DroneLib} {env : DroneRace} (hinv : env.score = env.ring_idx) :
    recorded_score L env = recorded_ring_idx L env := by
  unfold recorded_score recorded_ring_idx after_check
  simp only [hinv]

theorem c_step_recorded_facts {L : DroneLib} {fuel : Nat} {env : DroneRace} {g : Rng}
    {r : DroneRace × Rng} (h : c_step L fuel env g = some r) (h1 : r.1.terminals = 1) :
    r.1.log.perf = env.log.perf + (recorded_ring_idx L env : ℚ) / (env.max_rings : ℚ) ∧
    r.1.log.score = (recorded_score L env : ℚ) := by
  unfold recorded_ring_idx recorded_score
  rcases c_step_cases h with ⟨ho, F⟩ | ⟨ho, _, F⟩ | ⟨ho, _, _, F⟩ | ⟨_, _, _, rfl⟩
  · rw [F.log]
    simp [logged_oob, add_log, after_move, ho]
  · rw [F.log]
    simp [logged_collision, add_log, after_check, after_move, ho]
  · rw [F.log]
    simp [logged_truncation, add_log, after_check, after_move, ho]
  · exact absurd (show (0 : Nat) = 1 from h1) (by decide)

theorem recorded_ring_idx_range {L : DroneLib} {env : DroneRace}
    (hinv : 0 ≤ env.ring_idx ∧ env.ring_idx < env.max_rings) :
    0 ≤ recorded_ring_idx L env ∧ recorded_ring_idx L env ≤ env.max_rings ∧
    (recorded_ring_idx L env = env.max_rings ↔
      step_oob L env = false ∧ 0 < step_reward L env ∧
        env.ring_idx + 1 = env.max_rings) := by
  unfold recorded_ring_idx after_check
  rcases Bool.eq_false_or_eq_true (step_oob L env) with ho | ho
  · simp only [ho, if_true]
    refine ⟨hinv.1, le_of_lt hinv.2, ?_⟩
    constructor
    · intro he; omega
    · rintro ⟨hf, _⟩; exact absurd hf (by simp)
  · by_cases hp : step_reward L env > 0
    · simp only [ho, hp, if_true, if_false, Bool.false_eq_true]
      refine ⟨by omega, by omega, ?_⟩
      constructor
      · intro he; exact ⟨trivial, trivial, he⟩
      · rintro ⟨_, _, he⟩; exact he
    · simp only [ho, hp, if_false, Bool.false_eq_true]
      refine ⟨hinv.1, le_of_lt hinv.2, ?_⟩
      constructor
      · intro he; omega
      · rintro ⟨_, hp2, _⟩; exact hp2.elim

theorem sample_start_max_moves (m : Int) : (sampleStartReset m).1.max_moves = m := by
  rw [sample_start_reset_eq]
  rfl

theorem sample_start_max_rings (m : Int) : (sampleStartReset m).1.max_rings = 1 := by
  rw [sample_start_reset_eq]
  rfl

theorem sample_start_step_terminal (m : Int) : (sampleStartStep m).1.terminals = 1 :=
  (c_step_completion_facts (run_score_eq (sample_start_run m)) (sample_start_idx m)
    (sample_start_inbounds m) (by rw [sample_start_reward]; norm_num)
    (sample_start_step m)).1

theorem sample_final_timeout :
    (sampleStartStep 1).1.log.timeout = (sampleStartReset 1).1.log.timeout + 1 := by
  have t := c_step_completion_facts (run_score_eq (sample_start_run 1)) (sample_start_idx 1)
    (sample_start_inbounds 1) (by rw [sample_start_reward]; norm_num) (sample_start_step 1)
  rw [t.2.2.2.2, sample_start_moves]
  norm_num

/-! ## The claims -/

/-- C1. Whenever `c_reset` returns, whatever the state it was called on and
whatever the course generator, the drone constructor and the random draws
produced, the returned state has `tick = 0`, `ring_idx = 0`, `score = 0`,
`episodic_return = 0` and `moves_left = max_moves` (the configured budget,
which the reset does not change); and a second `c_reset` applied directly to
that returned state yields the same fresh values again. -/
theorem c_reset_fresh_episode (L : DroneLib) (fuel : Nat) (env : DroneRace) (g : Rng)
    (r : DroneRace × Rng) (h : c_reset L fuel env g = some r) :
    r.1.tick = 0 ∧ r.1.ring_idx = 0 ∧ r.1.score = 0 ∧ r.1.episodic_return = 0 ∧
    r.1.moves_left = r.1.max_moves ∧ r.1.max_moves = env.max_moves ∧
    ∀ (fuel2 : Nat) (g2 : Rng) (r2 : DroneRace × Rng),
      c_reset L fuel2 r.1 g2 = some r2 →
        r2.1.tick = 0 ∧ r2.1.ring_idx = 0 ∧ r2.1.score = 0 ∧ r2.1.episodic_return = 0 ∧
        r2.1.moves_left = env.max_moves := by
  have F := c_reset_facts h
  refine ⟨F.tick, F.ring_idx, F.score, F.episodic_return, ?_, F.max_moves, ?_⟩
  · rw [F.moves_left, F.max_moves]
  · intro fuel2 g2 r2 h2
    have F2 := c_reset_facts h2
    exact ⟨F2.tick, F2.ring_idx, F2.score, F2.episodic_return, by rw [F2.moves_left, F.max_moves]⟩

/-- Witness for C1: the reset of `sampleEnv` returns, and the returned state is
fresh. -/
theorem c_reset_fresh_episode_witness :
    c_reset sampleLib 1 sampleEnv 1 = some sampleReset ∧
    sampleReset.1.tick = 0 ∧ sampleReset.1.ring_idx = 0 ∧ sampleReset.1.score = 0 ∧
    sampleReset.1.episodic_return = 0 ∧ sampleReset.1.moves_left = sampleReset.1.max_moves ∧
    sampleReset.1.max_moves = sampleEnv.max_moves :=
  have h := some_getD_of_isSome (c_reset sampleLib 1 sampleEnv 1) (sampleEnv, 1)
    (sample_reset_isSome sampleEnv)
  have t := c_reset_fresh_episode sampleLib 1 sampleEnv 1 sampleReset h
  ⟨h, t.1, t.2.1, t.2.2.1, t.2.2.2.1, t.2.2.2.2.1, t.2.2.2.2.2.1⟩

/-- C2. When the moved drone is outside the flight volume, a returning `c_step`
yields reward `-1` and terminal flag `1`; `log.oob` and `log.n` grow by 1,
`log.collision_rate` and `log.timeout` are unchanged, `log.episode_return`
grows by the pre-step `episodic_return` minus 1; the score recorded is the
pre-step score; the result does not depend on `check_ring`; and the returned
state is a fresh episode (`tick = 0`, `ring_idx = 0`, `score = 0`,
`episodic_return = 0`, `moves_left = max_moves`). -/
theorem c_step_out_of_bounds (L : DroneLib) (fuel : Nat) (env : DroneRace) (g : Rng)
    (r : DroneRace × Rng) (hoob : step_oob L env = true)
    (h : c_step L fuel env g = some r) :
    r.1.rewards = -1 ∧ r.1.terminals = 1 ∧
    r.1.log.oob = env.log.oob + 1 ∧ r.1.log.n = env.log.n + 1 ∧
    r.1.log.collision_rate = env.log.collision_rate ∧
    r.1.log.timeout = env.log.timeout ∧
    r.1.log.episode_return = env.log.episode_return + (env.episodic_return - 1) ∧
    r.1.log.score = (env.score : ℚ) ∧
    (∀ f : Drone → Ring → ℚ, c_step { L with check_ring := f } fuel env g = some r) ∧
    r.1.tick = 0 ∧ r.1.ring_idx = 0 ∧ r.1.score = 0 ∧ r.1.episodic_return = 0 ∧
    r.1.moves_left = env.max_moves ∧ r.1.max_moves = env.max_moves := by
  have hc := h
  rw [c_step_oob_eq L fuel env g hoob] at hc
  have F := c_reset_facts hc
  unfold logged_oob at F
  refine ⟨?_, ?_, ?_, ?_, ?_, ?_, ?_, ?_, ?_, F.tick, F.ring_idx, F.score,
    F.episodic_return, F.moves_left, F.max_moves⟩
  · rw [F.rewards]; simp [add_log]
  · rw [F.terminals]; simp [add_log]
  · rw [F.log]; simp [add_log, after_move]
  · rw [F.log]; simp [add_log, after_move]
  · rw [F.log]; simp [add_log, after_move]
  · rw [F.log]; simp [add_log, after_move]
  · rw [F.log]; simp [add_log, after_move]
  · rw [F.log]; simp [add_log, after_move]
  · intro f
    rw [c_step_oob_eq { L with check_ring := f } fuel env g hoob, ← hc]
    exact c_reset_check_ring L f fuel _ g

/-- Witness for C2: from `sampleOob` the commanded move leaves the volume and
the step returns. -/
theorem c_step_out_of_bounds_witness :
    step_oob sampleLib sampleOob = true ∧
    c_step sampleLib 1 sampleOob 1 = some sampleOobStep ∧
    sampleOobStep.1.rewards = -1 ∧ sampleOobStep.1.terminals = 1 ∧
    sampleOobStep.1.log.oob = sampleOob.log.oob + 1 ∧ sampleOobStep.1.tick = 0 :=
  have hoob : step_oob sampleLib sampleOob = true := sample_oob_flag
  have h : c_step sampleLib 1 sampleOob 1 = some sampleOobStep := sample_oob_step
  have t := c_step_out_of_bounds sampleLib 1 sampleOob 1 sampleOobStep hoob h
  ⟨hoob, h, t.1, t.2.1, t.2.2.1, t.2.2.2.2.2.2.2.2.2.1⟩

/-- C3. From a state with `ring_idx < max_rings`, a returning `c_step` sets the
terminal flag to 1 exactly when the tick triggers out-of-bounds, a collision or
truncation (`terminal_event`), and to 0 on every other tick, whatever the flag
held before. A tick without such an event always returns; a tick with one
returns exactly when the reset of the moved state does. -/
theorem c_step_terminal_iff (L : DroneLib) (fuel : Nat) (env : DroneRace) (g : Rng)
    (hidx : env.ring_idx < env.max_rings) :
    (∀ r : DroneRace × Rng, c_step L fuel env g = some r →
      (r.1.terminals = 1 ↔ terminal_event L env) ∧
      (r.1.terminals = 0 ↔ ¬ terminal_event L env)) ∧
    (¬ terminal_event L env → (c_step L fuel env g).isSome = true) ∧
    (terminal_event L env →
      (c_step L fuel env g).isSome = (c_reset L fuel (after_move L env) g).isSome) := by
  rw [terminal_event_iff L env hidx]
  refine ⟨?_, ?_, ?_⟩
  · intro r h
    rcases c_step_cases h with ⟨ho, F⟩ | ⟨ho, hr, F⟩ | ⟨ho, hr, ht, F⟩ | ⟨ho, hr, ht, rfl⟩
    · have h1 : r.1.terminals = 1 := by rw [F.terminals]; rfl
      simp [h1, ho]
    · have h1 : r.1.terminals = 1 := by rw [F.terminals]; rfl
      simp [h1, ho, hr]
    · have h1 : r.1.terminals = 1 := by rw [F.terminals]; rfl
      simp [h1, ho, hr, ht]
    · have h0 : (continued L env).terminals = 0 := rfl
      simp [h0, ho, hr, ht, not_lt.mpr hr]
  · intro hn
    have ho : step_oob L env = false := by
      rcases Bool.eq_false_or_eq_true (step_oob L env) with ho | ho
      · exact absurd (Or.inl ho) hn
      · exact ho
    have hr : 0 ≤ step_reward L env := by
      rcases lt_or_le (step_reward L env) 0 with hr | hr
      · exact absurd (Or.inr (Or.inl ⟨ho, hr⟩)) hn
      · exact hr
    have ht : ¬ truncates L env := fun ht => hn (Or.inr (Or.inr ⟨ho, hr, ht⟩))
    rw [c_step_continue_eq L fuel env g ho hr ht]
    rfl
  · rintro (ho | ⟨ho, hr⟩ | ⟨ho, hr, ht⟩)
    · rw [c_step_oob_eq L fuel env g ho]
      exact c_reset_isSome_congr L fuel _ _ g rfl rfl rfl
    · rw [c_step_collision_eq L fuel env g ho hr]
      exact c_reset_isSome_congr L fuel _ _ g rfl rfl rfl
    · rw [c_step_truncation_eq L fuel env g ho hr ht]
      exact c_reset_isSome_congr L fuel _ _ g rfl rfl rfl

/-- Witness for C3: from `sampleEnv` no terminal event occurs, the step returns
and the stale terminal flag 1 is replaced by 0. -/
theorem c_step_terminal_iff_witness :
    sampleEnv.ring_idx < sampleEnv.max_rings ∧ sampleEnv.terminals = 1 ∧
    ¬ terminal_event sampleLib sampleEnv ∧
    c_step sampleLib 0 sampleEnv 1 = some sampleStep ∧ sampleStep.1.terminals = 0 :=
  have hidx : sampleEnv.ring_idx < sampleEnv.max_rings := by decide
  have t := c_step_terminal_iff sampleLib 0 sampleEnv 1 hidx
  have h : c_step sampleLib 0 sampleEnv 1 = some sampleStep :=
    some_getD_of_isSome (c_step sampleLib 0 sampleEnv 1) (sampleEnv, 1)
      (t.2.1 sample_step_not_event)
  ⟨hidx, rfl, sample_step_not_event, h, ((t.1 sampleStep h).2).mpr sample_step_not_event⟩

/-- C4, as stated, fails: after resetting `sampleStart 1` (one ring, one move)
the state is reachable with `ring_idx = max_rings - 1`; the step stays in
bounds and passes the ring, so it completes the course, yet `log.timeout`
goes from 0 to 1 because the same tick uses up the last move. -/
theorem completion_on_last_move_logs_timeout :
    Run sampleLib (sampleStartReset 1).1 [] ∧
    (sampleStartReset 1).1.ring_idx = (sampleStartReset 1).1.max_rings - 1 ∧
    step_oob sampleLib (sampleStartReset 1).1 = false ∧
    0 < step_reward sampleLib (sampleStartReset 1).1 ∧
    c_step sampleLib 1 (sampleStartReset 1).1 1 = some (sampleStartStep 1) ∧
    (sampleStartReset 1).1.log.timeout = 0 ∧
    (sampleStartStep 1).1.log.timeout = 1 ∧
    (sampleStartStep 1).1.log.timeout ≠ (sampleStartReset 1).1.log.timeout := by
  have hpos : 0 < step_reward sampleLib (sampleStartReset 1).1 := by
    rw [sample_start_reward]; norm_num
  have t := c_step_completion_facts (run_score_eq (sample_start_run 1)) (sample_start_idx 1)
    (sample_start_inbounds 1) hpos (sample_start_step 1)
  have h0 : (sampleStartReset 1).1.log.timeout = 0 := by
    rw [sample_start_log]; rfl
  have h1 : (sampleStartStep 1).1.log.timeout = 1 := by
    rw [t.2.2.2.2, sample_start_moves, sample_start_log]
    norm_num [sampleEnv]
  refine ⟨sample_start_run 1, sample_start_idx 1, sample_start_inbounds 1, hpos,
    sample_start_step 1, h0, h1, ?_⟩
  rw [h0, h1]
  norm_num

/-- C4, amended. For an in-bounds `c_step` from a reachable state with
`ring_idx = max_rings - 1` in which `check_ring` returns a positive reward, a
returning step has the terminal flag 1, records the score `max_rings`, and
leaves `log.oob` and `log.collision_rate` unchanged; `log.timeout` is unchanged
provided the step does not also use up the last move (`moves_left ≠ 1`), and
grows by 1 when it does. -/
theorem c_step_course_completion (L : DroneLib) (fuel : Nat) (env : DroneRace)
    (rs : List ℚ) (g : Rng) (r : DroneRace × Rng) (hrun : Run L env rs)
    (hidx : env.ring_idx = env.max_rings - 1) (hin : step_oob L env = false)
    (hpos : 0 < step_reward L env) (h : c_step L fuel env g = some r) :
    r.1.terminals = 1 ∧ r.1.log.score = (env.max_rings : ℚ) ∧
    r.1.log.oob = env.log.oob ∧ r.1.log.collision_rate = env.log.collision_rate ∧
    (env.moves_left ≠ 1 → r.1.log.timeout = env.log.timeout) ∧
    (env.moves_left = 1 → r.1.log.timeout = env.log.timeout + 1) := by
  have t := c_step_completion_facts (run_score_eq hrun) hidx hin hpos h
  refine ⟨t.1, t.2.1, t.2.2.1, t.2.2.2.1, ?_, ?_⟩
  · intro hm
    have hm' : ¬ env.moves_left - 1 = 0 := by omega
    rw [t.2.2.2.2]
    simp [hm']
  · intro hm
    have hm' : env.moves_left - 1 = 0 := by omega
    rw [t.2.2.2.2]
    simp [hm']

/-- Witness for the amended C4: after resetting `sampleStart 3` (one ring, three
moves) the first step passes the ring with two moves to spare. -/
theorem c_step_course_completion_witness :
    Run sampleLib (sampleStartReset 3).1 [] ∧
    (sampleStartReset 3).1.ring_idx = (sampleStartReset 3).1.max_rings - 1 ∧
    step_oob sampleLib (sampleStartReset 3).1 = false ∧
    0 < step_reward sampleLib (sampleStartReset 3).1 ∧
    c_step sampleLib 1 (sampleStartReset 3).1 1 = some (sampleStartStep 3) ∧
    (sampleStartReset 3).1.moves_left ≠ 1 ∧
    (sampleStartStep 3).1.terminals = 1 ∧
    (sampleStartStep 3).1.log.score = ((sampleStartReset 3).1.max_rings : ℚ) ∧
    (sampleStartStep 3).1.log.timeout = (sampleStartReset 3).1.log.timeout :=
  have hpos : 0 < step_reward sampleLib (sampleStartReset 3).1 := by
    rw [sample_start_reward]; norm_num
  have hm : (sampleStartReset 3).1.moves_left ≠ 1 := by
    rw [sample_start_moves]; decide
  have t := c_step_course_completion sampleLib 1 (sampleStartReset 3).1 [] 1
    (sampleStartStep 3) (sample_start_run 3) (sample_start_idx 3) (sample_start_inbounds 3)
    hpos (sample_start_step 3)
  ⟨sample_start_run 3, sample_start_idx 3, sample_start_inbounds 3, hpos,
    sample_start_step 3, hm, t.1, t.2.1, t.2.2.2.2.1 hm⟩

/-- C5. For an in-bounds `c_step` that returns: if `moves_left` was 1 and
`check_ring` returned 0, the terminal flag is 1, `log.timeout` grows by exactly
1, `log.oob` and `log.collision_rate` are unchanged and the episode is reset;
and whenever the truncation branch is taken, the timeout flag it logs is 1 if
the decremented `moves_left` is zero and 0 otherwise. -/
theorem c_step_timeout (L : DroneLib) (fuel : Nat) (env : DroneRace) (g : Rng)
    (r : DroneRace × Rng) (hin : step_oob L env = false)
    (h : c_step L fuel env g = some r) :
    (env.moves_left = 1 → step_reward L env = 0 →
      r.1.terminals = 1 ∧ r.1.log.timeout = env.log.timeout + 1 ∧
      r.1.log.oob = env.log.oob ∧ r.1.log.collision_rate = env.log.collision_rate ∧
      r.1.tick = 0 ∧ r.1.ring_idx = 0 ∧ r.1.score = 0 ∧ r.1.episodic_return = 0 ∧
      r.1.moves_left = env.max_moves) ∧
    (0 ≤ step_reward L env → truncates L env →
      r.1.terminals = 1 ∧
      r.1.log.timeout = env.log.timeout + (if env.moves_left - 1 = 0 then 1 else 0)) := by
  have key : 0 ≤ step_reward L env → truncates L env →
      ResetFacts L (logged_truncation L env) r.1 := by
    intro hr ht
    have hc := h
    rw [c_step_truncation_eq L fuel env g hin hr ht] at hc
    exact c_reset_facts hc
  constructor
  · intro hm hz
    have F := key (le_of_eq hz.symm) (Or.inl (by rw [hm]; norm_num))
    refine ⟨?_, ?_, ?_, ?_, F.tick, F.ring_idx, F.score, F.episodic_return, F.moves_left⟩
    · rw [F.terminals]; rfl
    · rw [F.log]; simp [logged_truncation, add_log, after_check, after_move, hm]
    · rw [F.log]; simp [logged_truncation, add_log, after_check, after_move]
    · rw [F.log]; simp [logged_truncation, add_log, after_check, after_move]
  · intro hr ht
    have F := key hr ht
    refine ⟨?_, ?_⟩
    · rw [F.terminals]; rfl
    · rw [F.log]; simp [logged_truncation, add_log, after_check, after_move]

/-- Witness for C5: from `sampleLastMove` the drone stays in bounds, passes no
ring, and the last move is used up. -/
theorem c_step_timeout_witness :
    step_oob sampleLib sampleLastMove = false ∧
    c_step sampleLib 1 sampleLastMove 1 = some sampleLastMoveStep ∧
    sampleLastMove.moves_left = 1 ∧ step_reward sampleLib sampleLastMove = 0 ∧
    sampleLastMoveStep.1.terminals = 1 ∧
    sampleLastMoveStep.1.log.timeout = sampleLastMove.log.timeout + 1 :=
  have t := (c_step_timeout sampleLib 1 sampleLastMove 1 sampleLastMoveStep
    sample_last_move_inbounds sample_last_move_step).1 rfl sample_last_move_reward
  ⟨sample_last_move_inbounds, sample_last_move_step, rfl, sample_last_move_reward, t.1, t.2.1⟩

/-- C6. For every `c_step` that returns with the terminal flag set, the amounts
added to `log.oob`, `log.collision_rate` and `log.timeout` are each 0 or 1,
their sum is 0 or 1, and the sum is 0 only if the drone stayed in bounds, did
not collide, and the ring index after the ring check equals `max_rings`
(full-course completion). -/
theorem c_step_outcome_flags (L : DroneLib) (fuel : Nat) (env : DroneRace) (g : Rng)
    (r : DroneRace × Rng) (h : c_step L fuel env g = some r) (ht : r.1.terminals = 1) :
    (r.1.log.oob - env.log.oob = 0 ∨ r.1.log.oob - env.log.oob = 1) ∧
    (r.1.log.collision_rate - env.log.collision_rate = 0 ∨
      r.1.log.collision_rate - env.log.collision_rate = 1) ∧
    (r.1.log.timeout - env.log.timeout = 0 ∨ r.1.log.timeout - env.log.timeout = 1) ∧
    ((r.1.log.oob - env.log.oob) + (r.1.log.collision_rate - env.log.collision_rate)
        + (r.1.log.timeout - env.log.timeout) = 0 ∨
      (r.1.log.oob - env.log.oob) + (r.1.log.collision_rate - env.log.collision_rate)
        + (r.1.log.timeout - env.log.timeout) = 1) ∧
    ((r.1.log.oob - env.log.oob) + (r.1.log.collision_rate - env.log.collision_rate)
        + (r.1.log.timeout - env.log.timeout) = 0 →
      step_oob L env = false ∧ 0 ≤ step_reward L env ∧
      (if 0 < step_reward L env then env.ring_idx + 1 else env.ring_idx) = env.max_rings) := by
  rcases c_step_cases h with ⟨ho, F⟩ | ⟨ho, hr, F⟩ | ⟨ho, hr, htr, F⟩ | ⟨ho, hr, htr, rfl⟩
  · have e1 : r.1.log.oob = env.log.oob + 1 := by
      rw [F.log]; simp [logged_oob, add_log, after_move]
    have e2 : r.1.log.collision_rate = env.log.collision_rate := by
      rw [F.log]; simp [logged_oob, add_log, after_move]
    have e3 : r.1.log.timeout = env.log.timeout := by
      rw [F.log]; simp [logged_oob, add_log, after_move]
    rw [e1, e2, e3]
    norm_num
  · have e1 : r.1.log.oob = env.log.oob := by
      rw [F.log]; simp [logged_collision, add_log, after_check, after_move]
    have e2 : r.1.log.collision_rate = env.log.collision_rate + 1 := by
      rw [F.log]; simp [logged_collision, add_log, after_check, after_move]
    have e3 : r.1.log.timeout = env.log.timeout := by
      rw [F.log]; simp [logged_collision, add_log, after_check, after_move]
    rw [e1, e2, e3]
    norm_num
  · have e1 : r.1.log.oob = env.log.oob := by
      rw [F.log]; simp [logged_truncation, add_log, after_check, after_move]
    have e2 : r.1.log.collision_rate = env.log.collision_rate := by
      rw [F.log]; simp [logged_truncation, add_log, after_check, after_move]
    have e3 : r.1.log.timeout
        = env.log.timeout + (if env.moves_left - 1 = 0 then 1 else 0) := by
      rw [F.log]; simp [logged_truncation, add_log, after_check, after_move]
    rw [e1, e2, e3]
    by_cases hm : env.moves_left - 1 = 0
    · simp [hm]
    · have hidx : (after_check L env).ring_idx = env.max_rings := by
        rcases htr with htr | htr
        · exact absurd htr hm
        · exact htr
      simp only [hm, if_false]
      refine ⟨by norm_num, by norm_num, by norm_num, by norm_num, fun _ => ⟨ho, hr, ?_⟩⟩
      exact hidx
  · exact absurd (show (0 : Nat) = 1 from ht) (by decide)

/-- Witness for C6: the out-of-bounds step from `sampleOob` is terminal and logs
exactly one flag. -/
theorem c_step_outcome_flags_witness :
    c_step sampleLib 1 sampleOob 1 = some sampleOobStep ∧
    sampleOobStep.1.terminals = 1 ∧
    ((sampleOobStep.1.log.oob - sampleOob.log.oob)
        + (sampleOobStep.1.log.collision_rate - sampleOob.log.collision_rate)
        + (sampleOobStep.1.log.timeout - sampleOob.log.timeout) = 0 ∨
      (sampleOobStep.1.log.oob - sampleOob.log.oob)
        + (sampleOobStep.1.log.collision_rate - sampleOob.log.collision_rate)
        + (sampleOobStep.1.log.timeout - sampleOob.log.timeout) = 1) :=
  have h : c_step sampleLib 1 sampleOob 1 = some sampleOobStep := sample_oob_step
  have ht : sampleOobStep.1.terminals = 1 := sample_oob_step_terminal
  ⟨h, ht, (c_step_outcome_flags sampleLib 1 sampleOob 1 sampleOobStep h ht).2.2.2.1⟩

/-- C7. For every returning `c_step`, the reward written to `rewards[0]` is `-1`
if the moved drone is out of bounds and otherwise exactly the value `check_ring`
returns for the moved drone and the ring at the pre-step `ring_idx` (so
truncation adds nothing); and it is the same whatever `rewards[0]` held before
the step. -/
theorem c_step_reward_value (L : DroneLib) (fuel : Nat) (env : DroneRace) (g : Rng)
    (r : DroneRace × Rng) (h : c_step L fuel env g = some r) :
    r.1.rewards = (if step_oob L env = true then -1 else step_reward L env) ∧
    ∀ (x : ℚ) (r2 : DroneRace × Rng),
      c_step L fuel { env with rewards := x } g = some r2 → r2.1.rewards = r.1.rewards := by
  refine ⟨c_step_rewards_eq h, ?_⟩
  intro x r2 h2
  rw [c_step_rewards_eq h, c_step_rewards_eq h2]
  rfl

/-- Witness for C7: the collision step from `sampleCrash` returns, and its reward
is the value of `check_ring`, which is `-1` there. -/
theorem c_step_reward_value_witness :
    c_step sampleLib 1 sampleCrash 1 = some sampleCrashStep ∧
    sampleCrashStep.1.rewards
      = (if step_oob sampleLib sampleCrash = true then -1
          else step_reward sampleLib sampleCrash) ∧
    step_oob sampleLib sampleCrash = false ∧ step_reward sampleLib sampleCrash = -1 :=
  ⟨sample_crash_step,
    (c_step_reward_value sampleLib 1 sampleCrash 1 sampleCrashStep sample_crash_step).1,
    sample_crash_inbounds, sample_crash_reward⟩

/-- C8. Along every run (a `c_reset` followed by `c_step` calls), the
`episodic_return` of the current state is the sum of the rewards emitted on the
ticks since the last reset; hence a further step that does not end the episode
leaves `episodic_return` equal to the sum including its own reward, and a step
that ends the episode adds to `log.episode_return` the sum of the episode's
rewards including the terminal one. -/
theorem episodic_return_is_reward_sum (L : DroneLib) (env : DroneRace) (rs : List ℚ)
    (hrun : Run L env rs) :
    env.episodic_return = rs.sum ∧
    ∀ (fuel : Nat) (g : Rng) (r : DroneRace × Rng), c_step L fuel env g = some r →
      (r.1.terminals = 0 → r.1.episodic_return = (rs ++ [r.1.rewards]).sum) ∧
      (r.1.terminals = 1 →
        r.1.log.episode_return = env.log.episode_return + (rs ++ [r.1.rewards]).sum) := by
  have hsum := run_return_eq hrun
  refine ⟨hsum, ?_⟩
  intro fuel g r h
  have F := c_step_return_facts h
  constructor
  · intro h0
    rw [F.1 h0, hsum]
    simp
  · intro h1
    rw [(F.2 h1).2, hsum]
    simp

/-- Witness for C8: the run that resets `sampleStart 3` and then passes the only
ring; the terminal step adds the episode's single reward to
`log.episode_return`. -/
theorem episodic_return_is_reward_sum_witness :
    Run sampleLib (sampleStartReset 3).1 [] ∧
    (sampleStartReset 3).1.episodic_return = ([] : List ℚ).sum ∧
    c_step sampleLib 1 (sampleStartReset 3).1 1 = some (sampleStartStep 3) ∧
    (sampleStartStep 3).1.terminals = 1 ∧
    (sampleStartStep 3).1.log.episode_return
      = (sampleStartReset 3).1.log.episode_return
        + ([] ++ [(sampleStartStep 3).1.rewards]).sum :=
  have t := episodic_return_is_reward_sum sampleLib (sampleStartReset 3).1 []
    (sample_start_run 3)
  have ht : (sampleStartStep 3).1.terminals = 1 :=
    (c_step_completion_facts (run_score_eq (sample_start_run 3)) (sample_start_idx 3)
      (sample_start_inbounds 3) (by rw [sample_start_reward]; norm_num)
      (sample_start_step 3)).1
  ⟨sample_start_run 3, t.1, sample_start_step 3, ht,
    (t.2 1 1 (sampleStartStep 3) (sample_start_step 3)).2 ht⟩

/-- C9. For every `c_step` that returns with the terminal flag set, the returned
state is a fresh episode (`tick = 0`, `ring_idx = 0`, `score = 0`,
`episodic_return = 0`, `moves_left = max_moves`), the returned observation
buffer is the encoding of that returned state (recomputing it changes nothing,
and slots 0..28 do not depend on what the buffer held), while `rewards[0]` is
still the reward of the terminal tick. -/
theorem c_step_terminal_fresh (L : DroneLib) (fuel : Nat) (env : DroneRace) (g : Rng)
    (r : DroneRace × Rng) (h : c_step L fuel env g = some r) (ht : r.1.terminals = 1) :
    r.1.tick = 0 ∧ r.1.ring_idx = 0 ∧ r.1.score = 0 ∧ r.1.episodic_return = 0 ∧
    r.1.moves_left = r.1.max_moves ∧ r.1.max_moves = env.max_moves ∧
    (compute_observations L r.1).observations = r.1.observations ∧
    (∀ (o : Nat → ℚ) (i : Nat), i < 29 →
      (compute_observations L { r.1 with observations := o }).observations i
        = r.1.observations i) ∧
    r.1.rewards = (if step_oob L env = true then -1 else step_reward L env) := by
  have key : ∃ pre : DroneRace, ResetFacts L pre r.1 ∧ pre.max_moves = env.max_moves := by
    rcases c_step_cases h with ⟨_, F⟩ | ⟨_, _, F⟩ | ⟨_, _, _, F⟩ | ⟨_, _, _, rfl⟩
    · exact ⟨_, F, rfl⟩
    · exact ⟨_, F, rfl⟩
    · exact ⟨_, F, rfl⟩
    · exact absurd (show (0 : Nat) = 1 from ht) (by decide)
  obtain ⟨pre, F, hmax⟩ := key
  refine ⟨F.tick, F.ring_idx, F.score, F.episodic_return, ?_, ?_, ?_, ?_, c_step_rewards_eq h⟩
  · rw [F.moves_left, F.max_moves]
  · rw [F.max_moves, hmax]
  · rw [F.obs]
  · intro o i hi
    rw [compute_observations_written L r.1 o i hi, F.obs]

/-- Witness for C9: the collision step from `sampleCrash` returns with the
terminal flag set. -/
theorem c_step_terminal_fresh_witness :
    c_step sampleLib 1 sampleCrash 1 = some sampleCrashStep ∧
    sampleCrashStep.1.terminals = 1 ∧
    sampleCrashStep.1.tick = 0 ∧ sampleCrashStep.1.ring_idx = 0 ∧
    sampleCrashStep.1.score = 0 ∧ sampleCrashStep.1.episodic_return = 0 ∧
    sampleCrashStep.1.moves_left = sampleCrashStep.1.max_moves ∧
    (compute_observations sampleLib sampleCrashStep.1).observations
      = sampleCrashStep.1.observations :=
  have t := c_step_terminal_fresh sampleLib 1 sampleCrash 1 sampleCrashStep
    sample_crash_step sample_crash_step_terminal
  ⟨sample_crash_step, sample_crash_step_terminal, t.1, t.2.1, t.2.2.1, t.2.2.2.1,
    t.2.2.2.2.1, t.2.2.2.2.2.2.1⟩

/-- C10, on the code. Every returning `c_step` leaves `log.score` equal to the
score of the episode it recorded, or to 0 when it recorded none, whatever
`log.score` held before (line 160 clears it); the other seven fields are the
value before the call plus the contribution of the recorded episode (nothing
when the step is not terminal); and `c_reset` leaves the whole log alone. -/
theorem c_step_log_accumulation (L : DroneLib) (fuel : Nat) (env : DroneRace) (g : Rng)
    (r : DroneRace × Rng) (h : c_step L fuel env g = some r) :
    (r.1.terminals = 0 → r.1.log = { env.log with score := 0 }) ∧
    (r.1.terminals = 1 →
      r.1.log.score
        = (((if step_oob L env = true then env.score
              else if 0 < step_reward L env then env.score + 1 else env.score : Int)) : ℚ) ∧
      r.1.log.perf = env.log.perf
        + (((if step_oob L env = true then env.ring_idx
              else if 0 < step_reward L env then env.ring_idx + 1 else env.ring_idx : Int)) : ℚ)
          / (env.max_rings : ℚ) ∧
      r.1.log.episode_return
        = env.log.episode_return + (env.episodic_return + r.1.rewards) ∧
      r.1.log.episode_length = env.log.episode_length + ((env.tick + 1 : Int) : ℚ) ∧
      r.1.log.n = env.log.n + 1 ∧
      r.1.log.oob = env.log.oob + (if step_oob L env = true then 1 else 0) ∧
      r.1.log.collision_rate = env.log.collision_rate
        + (if step_oob L env = false ∧ step_reward L env < 0 then 1 else 0) ∧
      r.1.log.timeout = env.log.timeout
        + (if step_oob L env = false ∧ 0 ≤ step_reward L env ∧ env.moves_left - 1 = 0
            then 1 else 0)) ∧
    (∀ (fuel2 : Nat) (e : DroneRace) (g2 : Rng) (r2 : DroneRace × Rng),
      c_reset L fuel2 e g2 = some r2 → r2.1.log = e.log) := by
  refine ⟨?_, ?_, fun fuel2 e g2 r2 h2 => (c_reset_facts h2).log⟩
  · intro h0
    rcases c_step_cases h with ⟨_, F⟩ | ⟨_, _, F⟩ | ⟨_, _, _, F⟩ | ⟨_, _, _, rfl⟩
    · rw [F.terminals] at h0
      exact absurd (show (1 : Nat) = 0 from h0) (by decide)
    · rw [F.terminals] at h0
      exact absurd (show (1 : Nat) = 0 from h0) (by decide)
    · rw [F.terminals] at h0
      exact absurd (show (1 : Nat) = 0 from h0) (by decide)
    · rfl
  · intro h1
    have hret := ((c_step_return_facts h).2 h1).2
    rcases c_step_cases h with ⟨ho, F⟩ | ⟨ho, hr, F⟩ | ⟨ho, hr, htr, F⟩ | ⟨ho, hr, htr, rfl⟩
    · refine ⟨?_, ?_, hret, ?_, ?_, ?_, ?_, ?_⟩ <;> rw [F.log] <;>
        simp [logged_oob, add_log, after_move, ho]
    · have hn : ¬ 0 < step_reward L env := not_lt.mpr hr.le
      refine ⟨?_, ?_, hret, ?_, ?_, ?_, ?_, ?_⟩ <;> rw [F.log] <;>
        simp [logged_collision, add_log, after_check, after_move, ho, hr, hn]
    · have hn : ¬ step_reward L env < 0 := not_lt.mpr hr
      refine ⟨?_, ?_, hret, ?_, ?_, ?_, ?_, ?_⟩ <;> rw [F.log] <;>
        simp [logged_truncation, add_log, after_check, after_move, ho, hr, hn]
    · exact absurd (show (0 : Nat) = 1 from h1) (by decide)

/-- Witness for C10: `sampleEnv` holds `log.score = 5`; the step from it ends no
episode, and returns with `log.score = 0`. -/
theorem c_step_log_accumulation_witness :
    c_step sampleLib 0 sampleEnv 1 = some sampleStep ∧
    sampleStep.1.terminals = 0 ∧ sampleEnv.log.score = 5 ∧ sampleStep.1.log.score = 0 :=
  have t := (c_step_log_accumulation sampleLib 0 sampleEnv 1 sampleStep sample_step_eq).1
    sample_step_terminal
  ⟨sample_step_eq, sample_step_terminal, rfl, by rw [t]⟩

/-- C11. `add_log` changes only the log of the environment: it adds `score` to
`log.score`, `episodic_return` to `log.episode_return`, `tick` to
`log.episode_length`, `ring_idx / max_rings` to `log.perf`, the three flags to
`log.oob`, `log.collision_rate` and `log.timeout`, and 1 to `log.n`; and there
is no cap: after `k` calls `log.n` has grown by `k`, for every `k`. -/
theorem add_log_effect (env : DroneRace) (oob collision timeout : ℚ) :
    (add_log env oob collision timeout).log.score = env.log.score + (env.score : ℚ) ∧
    (add_log env oob collision timeout).log.episode_return
      = env.log.episode_return + env.episodic_return ∧
    (add_log env oob collision timeout).log.episode_length
      = env.log.episode_length + (env.tick : ℚ) ∧
    (add_log env oob collision timeout).log.perf
      = env.log.perf + (env.ring_idx : ℚ) / (env.max_rings : ℚ) ∧
    (add_log env oob collision timeout).log.oob = env.log.oob + oob ∧
    (add_log env oob collision timeout).log.collision_rate
      = env.log.collision_rate + collision ∧
    (add_log env oob collision timeout).log.timeout = env.log.timeout + timeout ∧
    (add_log env oob collision timeout).log.n = env.log.n + 1 ∧
    add_log env oob collision timeout
      = { env with log := (add_log env oob collision timeout).log } ∧
    ∀ k : Nat,
      ((fun e => add_log e oob collision timeout)^[k] env).log.n = env.log.n + (k : ℚ) :=
  ⟨rfl, rfl, rfl, rfl, rfl, rfl, rfl, rfl, rfl,
    fun k => add_log_iterate_n oob collision timeout k env⟩

/-- C12. Whenever `c_reset` returns, the spawn position is the first candidate of
the rejection loop that is not closer than `2 * ring_radius = 4` to the centre
of ring 0 of the new course (every earlier candidate was closer), so the
distance of the returned drone to `ring_buffer[0].pos` is at least 4 and
`prev_pos` equals the spawn position; any larger fuel gives the same result,
and `c_reset` does return as soon as some candidate is acceptable. -/
theorem c_reset_spawn (L : DroneLib) (fuel : Nat) (env : DroneRace) (g : Rng)
    (r : DroneRace × Rng) (h : c_reset L fuel env g = some r) :
    4 ≤ L.norm3 (L.sub3 r.1.drone.state.pos (r.1.ring_buffer 0).pos) ∧
    r.1.drone.prev_pos = r.1.drone.state.pos ∧
    r.1.ring_buffer = reset_course L env g ∧
    (∃ k, k < fuel ∧
      (∀ j, j < k →
        too_close L r.1.ring_buffer (nth_candidate L (reset_made L env g).2 j).1) ∧
      ¬ too_close L r.1.ring_buffer (nth_candidate L (reset_made L env g).2 k).1 ∧
      r.1.drone.state.pos = (nth_candidate L (reset_made L env g).2 k).1 ∧
      r.2 = (nth_candidate L (reset_made L env g).2 k).2 ∧
      ∀ fuel2, k < fuel2 → c_reset L fuel2 env g = some r) ∧
    (∀ k, ¬ too_close L (reset_course L env g) (nth_candidate L (reset_made L env g).2 k).1 →
      (c_reset L (k + 1) env g).isSome = true) := by
  have hc := h
  rw [c_reset_eq] at hc
  cases hs : spawn_loop L ((reset_course L env g) 0).pos 2 fuel (reset_made L env g).1
      (reset_made L env g).2 with
  | none =>
    rw [hs] at hc
    exact absurd hc (by simp)
  | some p =>
    obtain ⟨d2, g2⟩ := p
    rw [hs] at hc
    have hr : r = _ := (Option.some.inj hc).symm
    obtain ⟨k, hk, hrej, hacc, hd, hg⟩ :=
      spawn_loop_sound L (reset_course L env g) fuel _ _ d2 g2 hs
    have hbuf : r.1.ring_buffer = reset_course L env g := by rw [hr]; rfl
    have hpos : r.1.drone.state.pos = (nth_candidate L (reset_made L env g).2 k).1 := by
      rw [hr, hd]; rfl
    have hprev : r.1.drone.prev_pos = r.1.drone.state.pos := by rw [hr]; rfl
    have hfar : ¬ too_close L r.1.ring_buffer r.1.drone.state.pos := by
      rw [hbuf, hpos]; exact hacc
    refine ⟨not_lt.mp (by
      have h4 : (4 : ℚ) = 2 * 2 := by norm_num
      rw [h4]
      exact hfar), hprev, hbuf, ⟨k, hk, ?_, ?_, hpos, ?_, ?_⟩, ?_⟩
    · rw [hbuf]; exact hrej
    · rw [hbuf]; exact hacc
    · rw [hr, hg]
    · intro fuel2 hf
      rw [c_reset_eq, spawn_loop_complete L (reset_course L env g) k _ _ hrej hacc fuel2 hf,
        hr, hd, hg]
      rfl
    · intro k2 hk2
      have hret := spawn_loop_returns L (reset_course L env g) k2 (reset_made L env g).1
        (reset_made L env g).2 hk2
      rw [c_reset_eq]
      cases hs2 : spawn_loop L ((reset_course L env g) 0).pos 2 (k2 + 1)
          (reset_made L env g).1 (reset_made L env g).2 with
      | none =>
        rw [hs2] at hret
        exact absurd hret (by simp)
      | some p2 => rfl

/-- Witness for C12: with `sampleRetryLib` the first candidate of the reset of
`sampleEnv` lands on the centre of ring 0 and is rejected (one draw is not
enough), the second is kept. -/
theorem c_reset_spawn_witness :
    c_reset sampleRetryLib 2 sampleEnv 0 = some sampleRetryReset ∧
    c_reset sampleRetryLib 1 sampleEnv 0 = none ∧
    4 ≤ sampleRetryLib.norm3 (sampleRetryLib.sub3 sampleRetryReset.1.drone.state.pos
      (sampleRetryReset.1.ring_buffer 0).pos) ∧
    sampleRetryReset.1.drone.prev_pos = sampleRetryReset.1.drone.state.pos :=
  have t := c_reset_spawn sampleRetryLib 2 sampleEnv 0 sampleRetryReset sample_retry_reset_eq
  ⟨sample_retry_reset_eq, sample_retry_short, t.1, t.2.1⟩

/-- C13, as stated, fails: slot 3 of the encoding of `sampleEnv` holds the x
component of the current ring normal (1), not the x component of the scaled
body-frame vector to the next ring (1/3), which the claimed order puts there. -/
theorem observation_slot3_is_ring_normal :
    (compute_observations sampleLib sampleEnv).observations 3 = 1 ∧
    (body sampleLib sampleEnv
        (sampleLib.sub3 (next_ring sampleEnv).pos sampleEnv.drone.state.pos)).x
      / sampleLib.GRID_X = 1 / 3 ∧
    (compute_observations sampleLib sampleEnv).observations 3
      ≠ (body sampleLib sampleEnv
          (sampleLib.sub3 (next_ring sampleEnv).pos sampleEnv.drone.state.pos)).x
        / sampleLib.GRID_X := by
  have h3 : (compute_observations sampleLib sampleEnv).observations 3 = 1 := by
    rw [compute_observations_slot3]
    norm_num [body, curr_ring, sampleLib, sampleEnv]
  have hn : (body sampleLib sampleEnv
        (sampleLib.sub3 (next_ring sampleEnv).pos sampleEnv.drone.state.pos)).x
      / sampleLib.GRID_X = 1 / 3 := by
    norm_num [body, next_ring, sampleLib, sampleEnv, Int.zero_tmod]
  refine ⟨h3, hn, ?_⟩
  rw [h3, hn]
  norm_num

/-- C13, amended. `compute_observations` changes only the observation buffer and
there only slots 0..28, laid out as: scaled body-frame vector to the current
ring (0-2), current ring normal in body frame (3-5), scaled body-frame vector
to the next ring (6-8), next ring normal in body frame (9-11), body-frame
velocity over `max_vel` (12-14), angular velocity over `max_omega` (15-17), the
body z-axis rotated by the orientation quaternion itself (18-20), the raw
quaternion w, x, y, z (21-24), the rotor speeds over `max_rpm` (25-28). -/
theorem compute_observations_layout (L : DroneLib) (env : DroneRace) :
    (compute_observations L env).observations 0
      = (body L env (L.sub3 (curr_ring env).pos env.drone.state.pos)).x / L.GRID_X ∧
    (compute_observations L env).observations 1
      = (body L env (L.sub3 (curr_ring env).pos env.drone.state.pos)).y / L.GRID_Y ∧
    (compute_observations L env).observations 2
      = (body L env (L.sub3 (curr_ring env).pos env.drone.state.pos)).z / L.GRID_Z ∧
    (compute_observations L env).observations 3 = (body L env (curr_ring env).normal).x ∧
    (compute_observations L env).observations 4 = (body L env (curr_ring env).normal).y ∧
    (compute_observations L env).observations 5 = (body L env (curr_ring env).normal).z ∧
    (compute_observations L env).observations 6
      = (body L env (L.sub3 (next_ring env).pos env.drone.state.pos)).x / L.GRID_X ∧
    (compute_observations L env).observations 7
      = (body L env (L.sub3 (next_ring env).pos env.drone.state.pos)).y / L.GRID_Y ∧
    (compute_observations L env).observations 8
      = (body L env (L.sub3 (next_ring env).pos env.drone.state.pos)).z / L.GRID_Z ∧
    (compute_observations L env).observations 9 = (body L env (next_ring env).normal).x ∧
    (compute_observations L env).observations 10 = (body L env (next_ring env).normal).y ∧
    (compute_observations L env).observations 11 = (body L env (next_ring env).normal).z ∧
    (compute_observations L env).observations 12
      = (body L env env.drone.state.vel).x / env.drone.params.max_vel ∧
    (compute_observations L env).observations 13
      = (body L env env.drone.state.vel).y / env.drone.params.max_vel ∧
    (compute_observations L env).observations 14
      = (body L env env.drone.state.vel).z / env.drone.params.max_vel ∧
    (compute_observations L env).observations 15
      = env.drone.state.omega.x / env.drone.params.max_omega ∧
    (compute_observations L env).observations 16
      = env.drone.state.omega.y / env.drone.params.max_omega ∧
    (compute_observations L env).observations 17
      = env.drone.state.omega.z / env.drone.params.max_omega ∧
    (compute_observations L env).observations 18
      = (L.quat_rotate env.drone.state.quat ⟨0, 0, 1⟩).x ∧
    (compute_observations L env).observations 19
      = (L.quat_rotate env.drone.state.quat ⟨0, 0, 1⟩).y ∧
    (compute_observations L env).observations 20
      = (L.quat_rotate env.drone.state.quat ⟨0, 0, 1⟩).z ∧
    (compute_observations L env).observations 21 = env.drone.state.quat.w ∧
    (compute_observations L env).observations 22 = env.drone.state.quat.x ∧
    (compute_observations L env).observations 23 = env.drone.state.quat.y ∧
    (compute_observations L env).observations 24 = env.drone.state.quat.z ∧
    (compute_observations L env).observations 25
      = env.drone.state.rpms 0 / env.drone.params.max_rpm ∧
    (compute_observations L env).observations 26
      = env.drone.state.rpms 1 / env.drone.params.max_rpm ∧
    (compute_observations L env).observations 27
      = env.drone.state.rpms 2 / env.drone.params.max_rpm ∧
    (compute_observations L env).observations 28
      = env.drone.state.rpms 3 / env.drone.params.max_rpm ∧
    (∀ i, 29 ≤ i → (compute_observations L env).observations i = env.observations i) ∧
    compute_observations L env
      = { env with observations := (compute_observations L env).observations } :=
  ⟨rfl, rfl, rfl, rfl, rfl, rfl, rfl, rfl, rfl, rfl, rfl, rfl, rfl, rfl, rfl, rfl, rfl, rfl,
    rfl, rfl, rfl, rfl, rfl, rfl, rfl, rfl, rfl, rfl, rfl,
    fun i hi => compute_observations_frame L env i hi, rfl⟩

/-- C14. For every state with `0 ≤ ring_idx < max_rings`, the next ring of
`compute_observations` is the current ring (`ring_idx % max_rings = ring_idx`),
so slots 6..8 equal slots 0..2 and slots 9..11 equal slots 3..5, whatever the
drone state and the quaternion helpers. -/
theorem next_ring_is_current (L : DroneLib) (env : DroneRace)
    (h0 : 0 ≤ env.ring_idx) (h1 : env.ring_idx < env.max_rings) :
    Int.tmod env.ring_idx env.max_rings = env.ring_idx ∧
    next_ring env = curr_ring env ∧
    (compute_observations L env).observations 6 = (compute_observations L env).observations 0 ∧
    (compute_observations L env).observations 7 = (compute_observations L env).observations 1 ∧
    (compute_observations L env).observations 8 = (compute_observations L env).observations 2 ∧
    (compute_observations L env).observations 9 = (compute_observations L env).observations 3 ∧
    (compute_observations L env).observations 10 = (compute_observations L env).observations 4 ∧
    (compute_observations L env).observations 11
      = (compute_observations L env).observations 5 := by
  have e : Int.tmod env.ring_idx env.max_rings = env.ring_idx := Int.tmod_eq_of_lt h0 h1
  have en : next_ring env = curr_ring env := by
    unfold next_ring curr_ring
    rw [e]
  have s6 : (compute_observations L env).observations 6
      = (body L env (L.sub3 (next_ring env).pos env.drone.state.pos)).x / L.GRID_X := rfl
  have s7 : (compute_observations L env).observations 7
      = (body L env (L.sub3 (next_ring env).pos env.drone.state.pos)).y / L.GRID_Y := rfl
  have s8 : (compute_observations L env).observations 8
      = (body L env (L.sub3 (next_ring env).pos env.drone.state.pos)).z / L.GRID_Z := rfl
  have s9 : (compute_observations L env).observations 9
      = (body L env (next_ring env).normal).x := rfl
  have s10 : (compute_observations L env).observations 10
      = (body L env (next_ring env).normal).y := rfl
  have s11 : (compute_observations L env).observations 11
      = (body L env (next_ring env).normal).z := rfl
  refine ⟨e, en, ?_, ?_, ?_, ?_, ?_, ?_⟩
  · rw [s6, en]; rfl
  · rw [s7, en]; rfl
  · rw [s8, en]; rfl
  · rw [s9, en]; rfl
  · rw [s10, en]; rfl
  · rw [s11, en]; rfl

/-- Witness for C14: `sampleEnv` has `ring_idx = 0` and `max_rings = 2`. -/
theorem next_ring_is_current_witness :
    0 ≤ sampleEnv.ring_idx ∧ sampleEnv.ring_idx < sampleEnv.max_rings ∧
    next_ring sampleEnv = curr_ring sampleEnv ∧
    (compute_observations sampleLib sampleEnv).observations 6
      = (compute_observations sampleLib sampleEnv).observations 0 :=
  have h0 : 0 ≤ sampleEnv.ring_idx := by decide
  have h1 : sampleEnv.ring_idx < sampleEnv.max_rings := by decide
  have t := next_ring_is_current sampleLib sampleEnv h0 h1
  ⟨h0, h1, t.2.1, t.2.2.1⟩

/-- C15, as stated, fails: the step from `sampleCrash` is in bounds and
collides, and it returns with slot 0 of the observation buffer changed from 0
to 13/10, the scaled offset from the new spawn point to ring 0 of the new
course. -/
theorem collision_step_recomputes_observations :
    step_oob sampleLib sampleCrash = false ∧ step_reward sampleLib sampleCrash < 0 ∧
    c_step sampleLib 1 sampleCrash 1 = some sampleCrashStep ∧
    sampleCrash.observations 0 = 0 ∧ sampleCrashStep.1.observations 0 = 13 / 10 ∧
    sampleCrashStep.1.observations ≠ sampleCrash.observations := by
  have hneg : step_reward sampleLib sampleCrash < 0 := by
    rw [sample_crash_reward]; norm_num
  have h0 : sampleCrash.observations 0 = 0 := rfl
  have h1 : sampleCrashStep.1.observations 0 = 13 / 10 := by
    rw [sample_crash_step_value]
    unfold sampleResetOf
    rw [compute_observations_slot0]
    norm_num [body, curr_ring, sampleLib, sampleCourse, sampleSpawned]
  refine ⟨sample_crash_inbounds, hneg, sample_crash_step, h0, h1, ?_⟩
  intro heq
  have h2 := congrFun heq 0
  rw [h0, h1] at h2
  norm_num at h2

/-- C15, amended. On a collision-triggered termination (in bounds, `check_ring`
negative) a returning `c_step` hands back the observations of the reset
episode: `c_reset` itself ends with `compute_observations`, so slots 0..28 hold
the encoding of the returned state (whatever the buffer held before) and only
slots from 29 on are those held before the step. What the collision path omits
relative to the out-of-bounds path is a second, redundant recomputation. -/
theorem c_step_collision_observations (L : DroneLib) (fuel : Nat) (env : DroneRace)
    (g : Rng) (r : DroneRace × Rng) (hin : step_oob L env = false)
    (hneg : step_reward L env < 0) (h : c_step L fuel env g = some r) :
    r.1.terminals = 1 ∧ r.1.tick = 0 ∧ r.1.ring_idx = 0 ∧
    compute_observations L r.1 = r.1 ∧
    (∀ (o : Nat → ℚ) (i : Nat), i < 29 →
      (compute_observations L { r.1 with observations := o }).observations i
        = r.1.observations i) ∧
    (∀ i, 29 ≤ i → r.1.observations i = env.observations i) := by
  have hc := h
  rw [c_step_collision_eq L fuel env g hin hneg] at hc
  have F := c_reset_facts hc
  refine ⟨?_, F.tick, F.ring_idx, F.obs, ?_, ?_⟩
  · rw [F.terminals]; rfl
  · intro o i hi
    rw [compute_observations_written L r.1 o i hi, F.obs]
  · intro i hi
    rw [c_reset_obs_frame hc i hi]
    rfl

/-- Witness for the amended C15: the collision step from `sampleCrash`. -/
theorem c_step_collision_observations_witness :
    step_oob sampleLib sampleCrash = false ∧ step_reward sampleLib sampleCrash < 0 ∧
    c_step sampleLib 1 sampleCrash 1 = some sampleCrashStep ∧
    sampleCrashStep.1.terminals = 1 ∧
    compute_observations sampleLib sampleCrashStep.1 = sampleCrashStep.1 :=
  have hneg : step_reward sampleLib sampleCrash < 0 := by
    rw [sample_crash_reward]; norm_num
  have t := c_step_collision_observations sampleLib 1 sampleCrash 1 sampleCrashStep
    sample_crash_inbounds hneg sample_crash_step
  ⟨sample_crash_inbounds, hneg, sample_crash_step, t.1, t.2.2.2.1⟩

/-- C16. A `c_step` that does not terminate (in bounds, `check_ring` not
negative, `moves_left - 1 ≠ 0`, updated `ring_idx ≠ max_rings`) always returns,
with the generator untouched and the terminal flag 0: `tick` grows by 1,
`moves_left` drops by 1; `score` and `ring_idx` grow by exactly 1 when
`check_ring` is positive and are unchanged when it is 0; the drone is the moved
drone with `prev_pos` set to its new position; the ring course, `max_rings`
and `max_moves` are unchanged; and the observation buffer is the encoding of
the returned state. -/
theorem c_step_continue (L : DroneLib) (fuel : Nat) (env : DroneRace) (g : Rng)
    (hin : step_oob L env = false) (hr : 0 ≤ step_reward L env)
    (hm : env.moves_left - 1 ≠ 0)
    (hidx : (if 0 < step_reward L env then env.ring_idx + 1 else env.ring_idx)
      ≠ env.max_rings) :
    (c_step L fuel env g).isSome = true ∧
    ∀ r : DroneRace × Rng, c_step L fuel env g = some r →
      r.2 = g ∧ r.1.terminals = 0 ∧
      r.1.tick = env.tick + 1 ∧ r.1.moves_left = env.moves_left - 1 ∧
      (0 < step_reward L env →
        r.1.score = env.score + 1 ∧ r.1.ring_idx = env.ring_idx + 1) ∧
      (step_reward L env = 0 → r.1.score = env.score ∧ r.1.ring_idx = env.ring_idx) ∧
      r.1.drone.state = (moved L env).state ∧
      r.1.drone.prev_pos = (moved L env).state.pos ∧
      r.1.drone.params = (moved L env).params ∧
      r.1.ring_buffer = env.ring_buffer ∧ r.1.max_rings = env.max_rings ∧
      r.1.max_moves = env.max_moves ∧
      compute_observations L r.1 = r.1 ∧
      (∀ (o : Nat → ℚ) (i : Nat), i < 29 →
        (compute_observations L { r.1 with observations := o }).observations i
          = r.1.observations i) := by
  have ht : ¬ truncates L env := by
    rintro (h | h)
    · exact hm h
    · exact hidx h
  have he := c_step_continue_eq L fuel env g hin hr ht
  refine ⟨by rw [he]; rfl, ?_⟩
  intro r h
  rw [he] at h
  have hr2 : r = (compute_observations L (continued L env), g) := (Option.some.inj h).symm
  subst hr2
  refine ⟨rfl, rfl, rfl, rfl, ?_, ?_, rfl, rfl, rfl, rfl, rfl, rfl,
    compute_observations_idem L _, ?_⟩
  · intro hp
    have hp2 : step_reward L env > 0 := hp
    constructor
    · show (after_check L env).score = env.score + 1
      unfold after_check
      simp only [hp2, if_true]
    · show (after_check L env).ring_idx = env.ring_idx + 1
      unfold after_check
      simp only [hp2, if_true]
  · intro hz
    have hp2 : ¬ step_reward L env > 0 := by rw [hz]; exact lt_irrefl 0
    constructor
    · show (after_check L env).score = env.score
      unfold after_check
      simp only [hp2, if_false]
    · show (after_check L env).ring_idx = env.ring_idx
      unfold after_check
      simp only [hp2, if_false]
  · intro o i hi
    rw [compute_observations_written L _ o i hi, compute_observations_idem]

/-- Witness for C16: the step from `sampleEnv` (in bounds, no ring passed, two
moves left, `ring_idx = 0` of 2). -/
theorem c_step_continue_witness :
    step_oob sampleLib sampleEnv = false ∧ 0 ≤ step_reward sampleLib sampleEnv ∧
    sampleEnv.moves_left - 1 ≠ 0 ∧
    (if 0 < step_reward sampleLib sampleEnv then sampleEnv.ring_idx + 1
      else sampleEnv.ring_idx) ≠ sampleEnv.max_rings ∧
    c_step sampleLib 0 sampleEnv 1 = some sampleStep ∧
    sampleStep.1.tick = sampleEnv.tick + 1 ∧
    sampleStep.1.moves_left = sampleEnv.moves_left - 1 ∧
    sampleStep.1.terminals = 0 :=
  have hin : step_oob sampleLib sampleEnv = false := sample_step_inbounds
  have hr : 0 ≤ step_reward sampleLib sampleEnv := le_of_eq sample_step_reward.symm
  have hm : sampleEnv.moves_left - 1 ≠ 0 := by decide
  have hidx : (if 0 < step_reward sampleLib sampleEnv then sampleEnv.ring_idx + 1
      else sampleEnv.ring_idx) ≠ sampleEnv.max_rings := by
    rw [sample_step_reward]
    norm_num [sampleEnv]
  have t := (c_step_continue sampleLib 0 sampleEnv 1 hin hr hm hidx).2 sampleStep
    sample_step_eq
  ⟨hin, hr, hm, hidx, sample_step_eq, t.2.2.1, t.2.2.2.1, t.2.1⟩

/-- C17. Every returning `c_step` records exactly one episode if it is terminal
and none otherwise: `log.n` grows by 1 when the terminal flag is set and is
unchanged when it is not, in which case `log.oob`, `log.collision_rate`,
`log.timeout`, `log.perf`, `log.episode_return` and `log.episode_length` are
unchanged too; the flag is always 0 or 1. -/
theorem c_step_records_once (L : DroneLib) (fuel : Nat) (env : DroneRace) (g : Rng)
    (r : DroneRace × Rng) (h : c_step L fuel env g = some r) :
    (r.1.terminals = 0 ∨ r.1.terminals = 1) ∧
    (r.1.terminals = 1 → r.1.log.n = env.log.n + 1) ∧
    (r.1.terminals = 0 →
      r.1.log.n = env.log.n ∧ r.1.log.oob = env.log.oob ∧
      r.1.log.collision_rate = env.log.collision_rate ∧
      r.1.log.timeout = env.log.timeout ∧ r.1.log.perf = env.log.perf ∧
      r.1.log.episode_return = env.log.episode_return ∧
      r.1.log.episode_length = env.log.episode_length) := by
  refine ⟨c_step_terminals_cases h, ?_, ?_⟩
  · intro h1
    rcases c_step_cases h with ⟨_, F⟩ | ⟨_, _, F⟩ | ⟨_, _, _, F⟩ | ⟨_, _, _, rfl⟩
    · rw [F.log]; rfl
    · rw [F.log]; rfl
    · rw [F.log]; rfl
    · exact absurd (show (0 : Nat) = 1 from h1) (by decide)
  · intro h0
    rcases c_step_cases h with ⟨_, F⟩ | ⟨_, _, F⟩ | ⟨_, _, _, F⟩ | ⟨_, _, _, rfl⟩
    · rw [F.terminals] at h0
      exact absurd (show (1 : Nat) = 0 from h0) (by decide)
    · rw [F.terminals] at h0
      exact absurd (show (1 : Nat) = 0 from h0) (by decide)
    · rw [F.terminals] at h0
      exact absurd (show (1 : Nat) = 0 from h0) (by decide)
    · exact ⟨rfl, rfl, rfl, rfl, rfl, rfl, rfl⟩

/-- Witness for C17: the terminal step from `sampleCrash` raises `log.n` by 1. -/
theorem c_step_records_once_witness :
    c_step sampleLib 1 sampleCrash 1 = some sampleCrashStep ∧
    sampleCrashStep.1.terminals = 1 ∧
    sampleCrashStep.1.log.n = sampleCrash.log.n + 1 :=
  ⟨sample_crash_step, sample_crash_step_terminal,
    (c_step_records_once sampleLib 1 sampleCrash 1 sampleCrashStep sample_crash_step).2.1
      sample_crash_step_terminal⟩

/-- C20. In every state of a run (returned by `c_reset` or by any sequence of
`c_step` calls after it) with `max_rings ≥ 1`, `0 ≤ ring_idx < max_rings`;
hence every index at which the next `c_step` reads `ring_buffer` (the ring
handed to `check_ring`, the reads of `c_reset`, the current and next ring of
`compute_observations`) lies within the `max_rings` slots of the buffer, and so
do the reads of a `c_reset` or `compute_observations` on that state; in
particular `compute_observations` is never entered with `ring_idx = max_rings`. -/
theorem ring_idx_in_range (L : DroneLib) (env : DroneRace) (rs : List ℚ)
    (hrun : Run L env rs) (hmax : 1 ≤ env.max_rings) :
    0 ≤ env.ring_idx ∧ env.ring_idx < env.max_rings ∧
    (∀ i ∈ c_step_reads L env, 0 ≤ i ∧ i < env.max_rings) ∧
    (∀ i ∈ c_reset_reads env, 0 ≤ i ∧ i < env.max_rings) ∧
    (∀ i ∈ compute_observations_reads env, 0 ≤ i ∧ i < env.max_rings) ∧
    (step_oob L env = false → 0 ≤ step_reward L env → ¬ truncates L env →
      (continued L env).ring_idx ≠ env.max_rings) := by
  have hinv := run_ring_idx_range hrun hmax
  have hzero : ∀ i ∈ compute_observations_reads { env with ring_idx := 0 },
      0 ≤ i ∧ i < env.max_rings :=
    compute_observations_reads_range { env with ring_idx := 0 }
      ⟨le_refl 0, by show (0 : Int) < env.max_rings; omega⟩
  refine ⟨hinv.1, hinv.2, ?_, c_reset_reads_range env hmax,
    compute_observations_reads_range env hinv, ?_⟩
  · intro i hi
    unfold c_step_reads at hi
    by_cases ho : step_oob L env = true
    · rw [if_pos ho] at hi
      rcases List.mem_append.mp hi with h1 | h2
      · exact c_reset_reads_range env hmax i h1
      · exact hzero i h2
    · rw [if_neg ho] at hi
      rcases List.mem_cons.mp hi with h0 | h1
      · rw [h0]; exact hinv
      · by_cases hn : step_reward L env < 0
        · rw [if_pos hn] at h1
          exact c_reset_reads_range env hmax i h1
        · rw [if_neg hn] at h1
          by_cases ht : truncates L env
          · rw [if_pos ht] at h1
            exact c_reset_reads_range env hmax i h1
          · rw [if_neg ht] at h1
            have hne : (after_check L env).ring_idx ≠ env.max_rings :=
              fun he => ht (Or.inr he)
            have hrange : 0 ≤ (continued L env).ring_idx ∧
                (continued L env).ring_idx < (continued L env).max_rings := by
              show 0 ≤ (after_check L env).ring_idx ∧
                (after_check L env).ring_idx < env.max_rings
              unfold after_check at hne ⊢
              simp only at hne ⊢
              split_ifs at hne ⊢ <;> omega
            exact compute_observations_reads_range (continued L env) hrange i h1
  · intro _ _ ht he
    exact ht (Or.inr he)

/-- Witness for C20: the state after resetting `sampleStart 3` is a state of a
run and has `max_rings = 1`. -/
theorem ring_idx_in_range_witness :
    Run sampleLib (sampleStartReset 3).1 [] ∧ 1 ≤ (sampleStartReset 3).1.max_rings ∧
    0 ≤ (sampleStartReset 3).1.ring_idx ∧
    (sampleStartReset 3).1.ring_idx < (sampleStartReset 3).1.max_rings :=
  have hmax : 1 ≤ (sampleStartReset 3).1.max_rings := by
    rw [sample_start_reset_eq]
    decide
  have t := ring_idx_in_range sampleLib (sampleStartReset 3).1 [] (sample_start_run 3) hmax
  ⟨sample_start_run 3, hmax, t.1, t.2.1⟩

/-- C21. In every state of a run (returned by `c_reset` or by any sequence of
`c_step` calls after it) with `max_moves ≥ 1`, `tick + moves_left = max_moves`
and `1 ≤ moves_left ≤ max_moves`; hence the episode length a terminal `c_step`
adds to `log.episode_length`, which is `tick + 1`, lies between 1 and
`max_moves`, and equals `max_moves` whenever that step logs timeout as 1. -/
theorem moves_budget_invariant (L : DroneLib) (env : DroneRace) (rs : List ℚ)
    (hrun : Run L env rs) (hmax : 1 ≤ env.max_moves) :
    env.tick + env.moves_left = env.max_moves ∧
    1 ≤ env.moves_left ∧ env.moves_left ≤ env.max_moves ∧
    ∀ (fuel : Nat) (g : Rng) (r : DroneRace × Rng),
      c_step L fuel env g = some r → r.1.terminals = 1 →
        r.1.log.episode_length = env.log.episode_length + ((env.tick + 1 : Int) : ℚ) ∧
        1 ≤ env.tick + 1 ∧ env.tick + 1 ≤ env.max_moves ∧
        (r.1.log.timeout = env.log.timeout + 1 → env.tick + 1 = env.max_moves) := by
  have hinv := run_moves_inv hrun hmax
  refine ⟨hinv.1, hinv.2.1, hinv.2.2, ?_⟩
  intro fuel g r h h1
  have F := c_step_length_facts h h1
  refine ⟨F.1, by omega, by omega, ?_⟩
  intro ht
  have hm := F.2 ht
  omega

/-- Witness for C21: after resetting `sampleStart 1` (a budget of one move) the
state satisfies the invariant, and the step from it logs a timeout with the
episode length `tick + 1 = max_moves`. -/
theorem moves_budget_invariant_witness :
    Run sampleLib (sampleStartReset 1).1 [] ∧ 1 ≤ (sampleStartReset 1).1.max_moves ∧
    (sampleStartReset 1).1.tick + (sampleStartReset 1).1.moves_left
      = (sampleStartReset 1).1.max_moves ∧
    c_step sampleLib 1 (sampleStartReset 1).1 1 = some (sampleStartStep 1) ∧
    (sampleStartStep 1).1.terminals = 1 ∧
    (sampleStartStep 1).1.log.timeout = (sampleStartReset 1).1.log.timeout + 1 ∧
    (sampleStartReset 1).1.tick + 1 = (sampleStartReset 1).1.max_moves :=
  have hmax : 1 ≤ (sampleStartReset 1).1.max_moves := by
    rw [sample_start_max_moves]
  have t := moves_budget_invariant sampleLib (sampleStartReset 1).1 [] (sample_start_run 1)
    hmax
  ⟨sample_start_run 1, hmax, t.1, sample_start_step 1, sample_start_step_terminal 1,
    sample_final_timeout,
    (t.2.2.2 1 1 (sampleStartStep 1) (sample_start_step 1)
      (sample_start_step_terminal 1)).2.2.2 sample_final_timeout⟩

/-- C22. In every state of a run `score = ring_idx`, and so it is at the
`add_log` call of a terminal `c_step` from it; the step records that score,
and the perf value it adds is that score over `max_rings`. On a configured
course (`max_rings ≥ 1`: the configuration is a positive integer, and for any
other value `c_reset` itself is undefined in C, taking a remainder by zero at
line 77 and reading `ring_buffer[0]` of an empty buffer) this value lies in
`[0, 1]` and is 1 exactly when the course was completed, that is when
`ring_idx` stood at `max_rings` at the `add_log` call, which happens exactly
when the step stayed in bounds and passed the last ring. -/
theorem score_equals_ring_idx (L : DroneLib) (env : DroneRace) (rs : List ℚ)
    (hrun : Run L env rs) :
    env.score = env.ring_idx ∧
    recorded_score L env = recorded_ring_idx L env ∧
    ∀ (fuel : Nat) (g : Rng) (r : DroneRace × Rng),
      c_step L fuel env g = some r → r.1.terminals = 1 →
        r.1.log.score = (recorded_score L env : ℚ) ∧
        r.1.log.perf
          = env.log.perf + (recorded_score L env : ℚ) / (env.max_rings : ℚ) ∧
        (1 ≤ env.max_rings →
          0 ≤ (recorded_score L env : ℚ) / (env.max_rings : ℚ) ∧
          (recorded_score L env : ℚ) / (env.max_rings : ℚ) ≤ 1 ∧
          ((recorded_score L env : ℚ) / (env.max_rings : ℚ) = 1 ↔
            recorded_ring_idx L env = env.max_rings) ∧
          (recorded_ring_idx L env = env.max_rings ↔
            step_oob L env = false ∧ 0 < step_reward L env ∧
              env.ring_idx + 1 = env.max_rings)) := by
  have hs := run_score_eq hrun
  have hrec : recorded_score L env = recorded_ring_idx L env := recorded_score_eq hs
  refine ⟨hs, hrec, ?_⟩
  intro fuel g r h h1
  have F := c_step_recorded_facts h h1
  refine ⟨F.2, by rw [F.1, hrec], ?_⟩
  intro hmax
  have hrange := recorded_ring_idx_range (L := L) (run_ring_idx_range hrun hmax)
  rw [hrec]
  have hm : (0 : ℚ) < (env.max_rings : ℚ) := by
    have h0 : (0 : Int) < env.max_rings := by omega
    exact_mod_cast h0
  have h0 : (0 : ℚ) ≤ (recorded_ring_idx L env : ℚ) := by exact_mod_cast hrange.1
  have hle : (recorded_ring_idx L env : ℚ) ≤ (env.max_rings : ℚ) := by
    exact_mod_cast hrange.2.1
  refine ⟨div_nonneg h0 hm.le, (div_le_one hm).mpr hle, ?_, hrange.2.2⟩
  rw [div_eq_one_iff_eq (ne_of_gt hm)]
  exact Int.cast_inj

/-- Witness for C22: after resetting `sampleStart 3` the first step passes the only
ring of the course; it is terminal and records the perf value 1. -/
theorem score_equals_ring_idx_witness :
    Run sampleLib (sampleStartReset 3).1 [] ∧
    (sampleStartReset 3).1.score = (sampleStartReset 3).1.ring_idx ∧
    c_step sampleLib 1 (sampleStartReset 3).1 1 = some (sampleStartStep 3) ∧
    (sampleStartStep 3).1.terminals = 1 ∧ 1 ≤ (sampleStartReset 3).1.max_rings ∧
    (recorded_score sampleLib (sampleStartReset 3).1 : ℚ)
      / ((sampleStartReset 3).1.max_rings : ℚ) = 1 :=
  have hmax : 1 ≤ (sampleStartReset 3).1.max_rings := by
    rw [sample_start_max_rings]
  have t := score_equals_ring_idx sampleLib (sampleStartReset 3).1 [] (sample_start_run 3)
  have u := (t.2.2 1 1 (sampleStartStep 3) (sample_start_step 3)
    (sample_start_step_terminal 3)).2.2 hmax
  have hdone : recorded_ring_idx sampleLib (sampleStartReset 3).1
      = (sampleStartReset 3).1.max_rings :=
    u.2.2.2.mpr ⟨sample_start_inbounds 3, by rw [sample_start_reward]; norm_num,
      by rw [sample_start_idx]; ring⟩
  ⟨sample_start_run 3, t.1, sample_start_step 3, sample_start_step_terminal 3, hmax,
    u.2.2.1.mpr hdone⟩

end Race

namespace Simulator

/-! ## Lemmas on the log buffer -/

theorem add_log_length (b : LogBuffer) (l : Log) : (add_log b l).length = b.length := by
  unfold add_log
  split <;> rfl

theorem add_logs_nil (b : LogBuffer) : add_logs b [] = b := rfl

theorem add_logs_cons (b : LogBuffer) (l : Log) (ls : List Log) :
    add_logs b (l :: ls) = add_logs (add_log b l) ls := rfl

theorem add_logs_length (ls : List Log) :
    ∀ b : LogBuffer, (add_logs b ls).length = b.length := by
  induction ls with
  | nil => intro b; rfl
  | cons l ls ih =>
    intro b
    rw [add_logs_cons, ih, add_log_length]

theorem add_logs_idx (ls : List Log) :
    ∀ b : LogBuffer, 0 ≤ b.idx → b.idx ≤ b.length →
      (add_logs b ls).idx = min (b.idx + (ls.length : Int)) b.length := by
  induction ls with
  | nil =>
    intro b _ hle
    rw [add_logs_nil]
    simp only [List.length_nil, Nat.cast_zero, add_zero]
    exact (min_eq_left hle).symm
  | cons l ls ih =>
    intro b h0 hle
    rw [add_logs_cons]
    by_cases hfull : b.idx = b.length
    · have hb : add_log b l = b := by
        unfold add_log
        rw [if_pos hfull]
      rw [hb, ih b h0 hle]
      simp only [List.length_cons, Nat.cast_add, Nat.cast_one]
      rw [min_eq_right (by omega), min_eq_right (by omega)]
    · have hi : (add_log b l).idx = b.idx + 1 := by
        unfold add_log
        rw [if_neg hfull]
      rw [ih (add_log b l) (by rw [hi]; omega) (by rw [hi, add_log_length]; omega), hi,
        add_log_length]
      simp only [List.length_cons, Nat.cast_add, Nat.cast_one]
      congr 1
      ring

theorem add_logs_retained (ls : List Log) :
    ∀ b : LogBuffer, 0 ≤ b.idx → b.idx ≤ b.length →
      (∀ j : Int, j < b.idx → (add_logs b ls).logs j = b.logs j) ∧
      (∀ i : Nat, i < ls.length → b.idx + (i : Int) < b.length →
        ls[i]? = some ((add_logs b ls).logs (b.idx + (i : Int)))) := by
  induction ls with
  | nil =>
    intro b _ _
    exact ⟨fun _ _ => rfl, fun i hi _ => absurd hi (by simp)⟩
  | cons l ls ih =>
    intro b h0 hle
    rw [add_logs_cons]
    by_cases hfull : b.idx = b.length
    · have hb : add_log b l = b := by
        unfold add_log
        rw [if_pos hfull]
      rw [hb]
      refine ⟨(ih b h0 hle).1, ?_⟩
      intro i _ hlt
      exact absurd hlt (by omega)
    · have hi : (add_log b l).idx = b.idx + 1 := by
        unfold add_log
        rw [if_neg hfull]
      have hl : (add_log b l).logs = Function.update b.logs b.idx l := by
        unfold add_log
        rw [if_neg hfull]
      have hlen := add_log_length b l
      obtain ⟨ih1, ih2⟩ := ih (add_log b l) (by rw [hi]; omega) (by rw [hi, hlen]; omega)
      constructor
      · intro j hj
        rw [ih1 j (by rw [hi]; omega), hl, Function.update_noteq (by omega)]
      · intro i hi2 hlt
        cases i with
        | zero =>
          have h1 := ih1 b.idx (by rw [hi]; omega)
          rw [hl, Function.update_same] at h1
          simp only [Nat.cast_zero, add_zero, List.getElem?_cons_zero, h1]
        | succ i =>
          have h2 := ih2 i (by simpa using hi2) (by rw [hi, hlen]; push_cast at hlt; omega)
          rw [hi] at h2
          simp only [List.getElem?_cons_succ]
          rw [h2]
          congr 2
          push_cast
          ring

/-- The accumulation loop of `aggregate_and_clear` adds up the three fields of
the visited slots. -/
theorem aggregate_fold (logs : Int → Log) (is : List Nat) :
    ∀ acc : Log,
      is.foldl
        (fun (log : Log) (i : Nat) =>
          let log := { log with
            episode_return := log.episode_return + (logs (i : Int)).episode_return }
          let log := { log with
            episode_length := log.episode_length + (logs (i : Int)).episode_length }
          { log with score := log.score + (logs (i : Int)).score })
        acc
      = ⟨acc.episode_return + (is.map (fun (i : Nat) => (logs (i : Int)).episode_return)).sum,
         acc.episode_length + (is.map (fun (i : Nat) => (logs (i : Int)).episode_length)).sum,
         acc.score + (is.map (fun (i : Nat) => (logs (i : Int)).score)).sum⟩ := by
  induction is with
  | nil =>
    intro acc
    simp
  | cons i is ih =>
    intro acc
    rw [List.foldl_cons, ih]
    simp only [List.map_cons, List.sum_cons]
    congr 1 <;> ring

theorem aggregate_nonzero (b : LogBuffer) (h : b.idx ≠ 0) :
    aggregate_and_clear b =
      (⟨(0 + ((List.range b.idx.toNat).map
            (fun (i : Nat) => (b.logs (i : Int)).episode_return)).sum) / (b.idx : ℚ),
        (0 + ((List.range b.idx.toNat).map
            (fun (i : Nat) => (b.logs (i : Int)).episode_length)).sum) / (b.idx : ℚ),
        (0 + ((List.range b.idx.toNat).map
            (fun (i : Nat) => (b.logs (i : Int)).score)).sum) / (b.idx : ℚ)⟩,
       { b with idx := 0 }) := by
  unfold aggregate_and_clear
  simp only [h, if_false]
  rw [aggregate_fold]

theorem aggregate_zero (b : LogBuffer) (h : b.idx = 0) :
    aggregate_and_clear b = (⟨0, 0, 0⟩, b) := by
  unfold aggregate_and_clear
  simp only [h, if_true]

theorem add_logs_prefix (b : LogBuffer) (ls : List Log) (hidx : b.idx = 0)
    (hlen : 0 ≤ b.length) :
    (List.range (min (ls.length : Int) b.length).toNat).map
        (fun (i : Nat) => (add_logs b ls).logs (i : Int))
      = ls.take b.length.toNat := by
  have hret := (add_logs_retained ls b (by omega) (by omega)).2
  apply List.ext_getElem?
  intro i
  by_cases hi : i < (min (ls.length : Int) b.length).toNat
  · have h1 : (i : Int) < (ls.length : Int) := by omega
    have h2 : (i : Int) < b.length := by omega
    have h3 : i < ls.length := by omega
    have h4 : i < b.length.toNat := by omega
    have hr := hret i h3 (by rw [hidx]; omega)
    rw [hidx, zero_add] at hr
    rw [List.getElem?_map, List.getElem?_range hi, List.getElem?_take_of_lt h4, hr]
    rfl
  · have hnone : (ls.take b.length.toNat)[i]? = none := by
      apply List.getElem?_eq_none
      rw [List.length_take]
      omega
    rw [hnone]
    apply List.getElem?_eq_none
    rw [List.length_map, List.length_range]
    omega

theorem sample_roomy_idx : sampleRoomy.idx = 3 := by
  unfold sampleRoomy
  rw [add_logs_idx _ _ (by decide) (by decide)]
  decide

theorem sample_roomy_length : sampleRoomy.length = 4 := by
  unfold sampleRoomy
  rw [add_logs_length]
  rfl

theorem sample_roomy_mean_score :
    ((List.range sampleRoomy.idx.toNat).map
          (fun (i : Nat) => (sampleRoomy.logs (i : Int)).score)).sum
        / (sampleRoomy.idx : ℚ) = 6 := by
  rw [sample_roomy_idx]
  have h3 : (3 : Int).toNat = 3 := rfl
  rw [h3]
  norm_num [List.range_succ, sampleRoomy, add_logs, sampleLogs, add_log, allocate_logbuffer,
    Function.update_apply]

/-! ## The claims on the log buffer -/

/-- C18, as stated, fails: a freshly allocated buffer of the size the simulator
uses (`LOG_BUFFER_SIZE = 1024`) holds `idx = 1024`, not 1025, after 1025 calls
of `add_log`. -/
theorem add_log_drops_when_full :
    (allocate_logbuffer 1024).idx = 0 ∧
    (List.replicate 1025 (⟨1, 1, 1⟩ : Log)).length = 1025 ∧
    (add_logs (allocate_logbuffer 1024) (List.replicate 1025 ⟨1, 1, 1⟩)).idx = 1024 ∧
    (add_logs (allocate_logbuffer 1024) (List.replicate 1025 ⟨1, 1, 1⟩)).idx ≠ 1025 := by
  have h : (add_logs (allocate_logbuffer 1024) (List.replicate 1025 ⟨1, 1, 1⟩)).idx
      = 1024 := by
    rw [add_logs_idx _ _ (by decide) (by decide), List.length_replicate]
    decide
  refine ⟨rfl, List.length_replicate 1025 _, h, ?_⟩
  rw [h]
  decide

/-- C18, amended. After the logs `ls` have been passed to `add_log` one by one,
starting from a buffer with `idx = 0` (freshly allocated or just cleared) of
capacity `length ≥ 0`, `idx` is `min (number of calls) length`: the first
`length` logs are retained in order of arrival and the later ones are dropped
(all are retained when their number does not exceed `length`); the next
`aggregate_and_clear` averages exactly the retained ones and resets `idx`. -/
theorem add_logs_capped (b : LogBuffer) (ls : List Log) (hidx : b.idx = 0)
    (hlen : 0 ≤ b.length) :
    (add_logs b ls).idx = min (ls.length : Int) b.length ∧
    (add_logs b ls).length = b.length ∧
    (∀ i : Nat, i < ls.length → (i : Int) < b.length →
      ls[i]? = some ((add_logs b ls).logs (i : Int))) ∧
    ((ls.length : Int) ≤ b.length → (add_logs b ls).idx = (ls.length : Int)) ∧
    (b.length < (ls.length : Int) → (add_logs b ls).idx = b.length) ∧
    (aggregate_and_clear (add_logs b ls)).1
      = ⟨((ls.take b.length.toNat).map (fun l => l.episode_return)).sum
            / ((min (ls.length : Int) b.length : Int) : ℚ),
         ((ls.take b.length.toNat).map (fun l => l.episode_length)).sum
            / ((min (ls.length : Int) b.length : Int) : ℚ),
         ((ls.take b.length.toNat).map (fun l => l.score)).sum
            / ((min (ls.length : Int) b.length : Int) : ℚ)⟩ ∧
    (aggregate_and_clear (add_logs b ls)).2.idx = 0 := by
  have hi : (add_logs b ls).idx = min (ls.length : Int) b.length := by
    rw [add_logs_idx ls b (by omega) (by omega), hidx, zero_add]
  have hret := (add_logs_retained ls b (by omega) (by omega)).2
  refine ⟨hi, add_logs_length ls b, ?_, ?_, ?_, ?_, ?_⟩
  · intro i h1 h2
    have hr := hret i h1 (by rw [hidx]; omega)
    rw [hidx, zero_add] at hr
    exact hr
  · intro h
    rw [hi, min_eq_left h]
  · intro h
    rw [hi, min_eq_right (le_of_lt h)]
  · by_cases hz : (add_logs b ls).idx = 0
    · rw [aggregate_zero _ hz]
      rw [hi] at hz
      rw [hz]
      simp
    · rw [aggregate_nonzero _ hz]
      have hp := add_logs_prefix b ls hidx hlen
      rw [← hi] at hp
      have e1 : (List.range (add_logs b ls).idx.toNat).map
          (fun (i : Nat) => ((add_logs b ls).logs (i : Int)).episode_return)
          = (ls.take b.length.toNat).map (fun l => l.episode_return) := by
        rw [← hp, List.map_map]
        rfl
      have e2 : (List.range (add_logs b ls).idx.toNat).map
          (fun (i : Nat) => ((add_logs b ls).logs (i : Int)).episode_length)
          = (ls.take b.length.toNat).map (fun l => l.episode_length) := by
        rw [← hp, List.map_map]
        rfl
      have e3 : (List.range (add_logs b ls).idx.toNat).map
          (fun (i : Nat) => ((add_logs b ls).logs (i : Int)).score)
          = (ls.take b.length.toNat).map (fun l => l.score) := by
        rw [← hp, List.map_map]
        rfl
      rw [e1, e2, e3, hi]
      simp
  · by_cases hz : (add_logs b ls).idx = 0
    · rw [aggregate_zero _ hz]
      exact hz
    · rw [aggregate_nonzero _ hz]

/-- Witness for the amended C18: three logs offered to a fresh buffer of
capacity 2 leave `idx = 2`. -/
theorem add_logs_capped_witness :
    (allocate_logbuffer 2).idx = 0 ∧ 0 ≤ (allocate_logbuffer 2).length ∧
    sampleFull.idx = min (sampleLogs.length : Int) (allocate_logbuffer 2).length ∧
    sampleFull.idx = (allocate_logbuffer 2).length :=
  have t := add_logs_capped (allocate_logbuffer 2) sampleLogs rfl (by decide)
  ⟨rfl, by decide, t.1, t.2.2.2.2.1 (by decide)⟩

/-- C19. For a buffer with `0 < idx` (in particular `0 < idx ≤ length`; the upper
bound, which keeps the reads inside the array, plays no part in the result),
`aggregate_and_clear` returns the field-wise mean (sum over the slots
`0 .. idx - 1` divided by `idx`) of `episode_return`, `episode_length` and
`score` and sets `idx` to 0, leaving the rest of the buffer alone; for
`idx = 0` it returns the all-zero `Log` and the buffer unchanged; and a second
`aggregate_and_clear` right after a first always returns the all-zero `Log`. -/
theorem aggregate_and_clear_mean (b : LogBuffer) (hpos : 0 < b.idx) :
    (aggregate_and_clear b).1.episode_return
      = ((List.range b.idx.toNat).map
          (fun (i : Nat) => (b.logs (i : Int)).episode_return)).sum / (b.idx : ℚ) ∧
    (aggregate_and_clear b).1.episode_length
      = ((List.range b.idx.toNat).map
          (fun (i : Nat) => (b.logs (i : Int)).episode_length)).sum / (b.idx : ℚ) ∧
    (aggregate_and_clear b).1.score
      = ((List.range b.idx.toNat).map
          (fun (i : Nat) => (b.logs (i : Int)).score)).sum / (b.idx : ℚ) ∧
    (aggregate_and_clear b).2 = { b with idx := 0 } ∧
    (∀ b0 : LogBuffer, b0.idx = 0 → aggregate_and_clear b0 = (⟨0, 0, 0⟩, b0)) ∧
    (∀ b0 : LogBuffer, (aggregate_and_clear (aggregate_and_clear b0).2).1 = ⟨0, 0, 0⟩) := by
  have hne : b.idx ≠ 0 := by omega
  rw [aggregate_nonzero b hne]
  refine ⟨by simp, by simp, by simp, rfl, fun b0 h0 => aggregate_zero b0 h0, ?_⟩
  intro b0
  have hcleared : (aggregate_and_clear b0).2.idx = 0 := by
    by_cases hz : b0.idx = 0
    · rw [aggregate_zero b0 hz]
      exact hz
    · rw [aggregate_nonzero b0 hz]
  rw [aggregate_zero _ hcleared]

/-- Witness for C19: the three logs of `sampleRoomy` (capacity 4), with scores
3, 5 and 10, average to the score 6. -/
theorem aggregate_and_clear_mean_witness :
    0 < sampleRoomy.idx ∧ sampleRoomy.idx ≤ sampleRoomy.length ∧
    (aggregate_and_clear sampleRoomy).1.score = 6 ∧
    (aggregate_and_clear sampleRoomy).2 = { sampleRoomy with idx := 0 } :=
  have hpos : 0 < sampleRoomy.idx := by rw [sample_roomy_idx]; decide
  have hle : sampleRoomy.idx ≤ sampleRoomy.length := by
    rw [sample_roomy_idx, sample_roomy_length]; decide
  have t := aggregate_and_clear_mean sampleRoomy hpos
  ⟨hpos, hle, t.2.2.1.trans sample_roomy_mean_score, t.2.2.2.1⟩

end Simulator
